import Mathlib

/-!
# protoc-gen-zig: field mapping and file emission

A shallow embedding of `generator/main.go`: the two field mappers
(`getFieldKindName`, `getFieldDescriptor`), the two per-field emitters and
`generateFile`, followed by theorems about them.

Go values are modelled as follows.

* `(string, error)` results are `Except String String`; an `error` is the text
  given to `fmt.Errorf`.
* `*protogen.GeneratedFile` is a file name and the sequence of lines printed
  with `P`; every call of `P` prints its arguments one after the other and ends
  the line.
* `*protogen.Plugin` is the sequence of generated files registered so far.
* `int32` numbers are `Int`; they are only printed, never computed with.
-/

namespace ProtocGenZig

/-! ## Descriptor model -/

/-- The eighteen kinds of `protoreflect.Kind`. -/
inductive Kind where
  | BoolKind | EnumKind | Int32Kind | Sint32Kind | Uint32Kind | Int64Kind
  | Sint64Kind | Uint64Kind | Sfixed32Kind | Fixed32Kind | FloatKind
  | Sfixed64Kind | Fixed64Kind | DoubleKind | StringKind | BytesKind
  | MessageKind | GroupKind
  deriving DecidableEq, Repr

/-- The text of a kind under the `%s` verb (`protoreflect.Kind.String`). -/
def Kind.name : Kind → String
  | .BoolKind => "bool"
  | .EnumKind => "enum"
  | .Int32Kind => "int32"
  | .Sint32Kind => "sint32"
  | .Uint32Kind => "uint32"
  | .Int64Kind => "int64"
  | .Sint64Kind => "sint64"
  | .Uint64Kind => "uint64"
  | .Sfixed32Kind => "sfixed32"
  | .Fixed32Kind => "fixed32"
  | .FloatKind => "float"
  | .Sfixed64Kind => "sfixed64"
  | .Fixed64Kind => "fixed64"
  | .DoubleKind => "double"
  | .StringKind => "string"
  | .BytesKind => "bytes"
  | .MessageKind => "message"
  | .GroupKind => "group"

/-- How many values a field holds. A map field is neither singular nor a list. -/
inductive Cardinality where
  | singular | repeated | map
  deriving DecidableEq, Repr

/-- The part of `protoreflect.FieldDescriptor` that the generator reads.
`NameAddr` is the code address of the method value `Desc.Name`, which is what
`fmt` prints when the method itself (not its result) is passed to `%s`. -/
structure FieldDescriptor where
  Name : String
  Number : Int
  Kind : Kind
  Cardinality : Cardinality
  NameAddr : Nat
  deriving DecidableEq, Repr

/-- The method `IsMap` of a field descriptor. -/
def FieldDescriptor.IsMap (d : FieldDescriptor) : Bool :=
  d.Cardinality == .map

/-- The method `IsList` of a field descriptor: repeated and not a map. -/
def FieldDescriptor.IsList (d : FieldDescriptor) : Bool :=
  d.Cardinality == .repeated

/-- A `protogen.Field`. `MessageName` is `field.Message.Desc.Name()` and
`EnumName` is `field.Enum.Desc.Name()`; each is read only under the kind
for which protogen sets the reference. -/
structure Field where
  Desc : FieldDescriptor
  MessageName : String
  EnumName : String
  deriving DecidableEq, Repr

/-- A `protogen.Message`: its name and its fields in declaration order. -/
structure Message where
  Name : String
  Fields : List Field
  deriving DecidableEq, Repr

/-- A `protogen.EnumValue`: its name and its number. -/
structure EnumValue where
  Name : String
  Number : Int
  deriving DecidableEq, Repr

/-- A `protogen.Enum`: its name and its values in declaration order. -/
structure Enum where
  Name : String
  Values : List EnumValue
  deriving DecidableEq, Repr

/-- A `protogen.File`. -/
structure File where
  GeneratedFilenamePrefix : String
  Enums : List Enum
  Messages : List Message
  deriving DecidableEq, Repr

/-! ## Output model -/

/-- A generated file: its name and the lines printed so far. -/
structure GeneratedFile where
  filename : String
  buf : List String
  deriving DecidableEq, Repr

/-- The method `P`: prints the arguments one after the other, then ends the line. -/
def GeneratedFile.P (g : GeneratedFile) (v : List String) : GeneratedFile :=
  { g with buf := g.buf ++ [String.join v] }

/-- The text of a generated file: every line followed by a newline. -/
def GeneratedFile.content (g : GeneratedFile) : String :=
  String.join (g.buf.map fun l => l ++ "\n")

/-- A `protogen.Plugin`: the generated files registered so far, oldest first. -/
structure Plugin where
  genFiles : List GeneratedFile
  deriving DecidableEq, Repr

/-- What `fmt` prints for a func value under `%s`: a bad-verb notice holding
the type and the code address in lower-case hexadecimal. -/
def fmtNameMethod (addr : Nat) : String :=
  "%!s(func() protoreflect.Name=0x" ++ String.mk (Nat.toDigits 16 addr) ++ ")"

/-- Equality of mapper results is decidable. -/
instance instDecidableEqResult : DecidableEq (Except String String)
  | .ok a, .ok b => if h : a = b then isTrue (by rw [h]) else isFalse (fun e => h (by cases e; rfl))
  | .error a, .error b =>
    if h : a = b then isTrue (by rw [h]) else isFalse (fun e => h (by cases e; rfl))
  | .ok _, .error _ => isFalse (fun e => by cases e)
  | .error _, .ok _ => isFalse (fun e => by cases e)

/-- The field `field` with its cardinality replaced by `c`; nothing else changes. -/
def Field.withCardinality (field : Field) (c : Cardinality) : Field :=
  { field with Desc := { field.Desc with Cardinality := c } }

/-- The field `field` with its number replaced by `n`; nothing else changes. -/
def Field.withNumber (field : Field) (n : Int) : Field :=
  { field with Desc := { field.Desc with Number := n } }

/-- The field `field` with its name replaced by `name`; nothing else changes. -/
def Field.withName (field : Field) (name : String) : Field :=
  { field with Desc := { field.Desc with Name := name } }

/-! ## The mappers -/

/-- The function `getFieldKindName` of `main.go`. -/
def getFieldKindName (field : Field) : Except String String :=
  let pre := "?"
  if field.Desc.IsMap then
    .error ("Maps are not supported, field type: " ++ fmtNameMethod field.Desc.NameAddr)
  else
    let pre := if field.Desc.IsList then pre ++ "ArrayList(" else pre
    let body : Except String String :=
      match field.Desc.Kind with
      | .Sint32Kind | .Sfixed32Kind => .ok (pre ++ "i32")
      | .Uint32Kind | .Fixed32Kind => .ok (pre ++ "u32")
      | .Sint64Kind | .Sfixed64Kind => .ok (pre ++ "i64")
      | .Uint64Kind | .Fixed64Kind => .ok (pre ++ "u64")
      | .BoolKind => .ok (pre ++ "bool")
      | .DoubleKind => .ok (pre ++ "f64")
      | .FloatKind => .ok (pre ++ "f32")
      | .StringKind => .ok (pre ++ "ArrayList(u8)")
      | .BytesKind => .ok (pre ++ "ArrayList(u8)")
      | .MessageKind => .ok (pre ++ field.MessageName)
      | .EnumKind => .ok (pre ++ field.EnumName)
      | k => .error ("unmanaged field type in getFieldKindName " ++ k.name)
    match body with
    | .error e => .error e
    | .ok pre => .ok (if field.Desc.IsList then pre ++ ")" else pre)

/-- The function `getFieldDescriptor` of `main.go`. -/
def getFieldDescriptor (field : Field) : Except String String :=
  let n := toString field.Desc.Number
  if field.Desc.IsList then
    match field.Desc.Kind with
    | .StringKind | .BytesKind => .ok ("fd(" ++ n ++ ", .\x7b .List = .FixedInt \x7d)")
    | .MessageKind => .ok ("fd(" ++ n ++ ", .\x7b .List = .SubMessage \x7d)")
    | .EnumKind => .ok ("fd(" ++ n ++ ", .\x7b .List = .\x7b .Varint = .ZigZagOptimized \x7d \x7d)")
    | k => .error ("unmanaged field type in  getFieldDescriptor " ++ k.name)
  else
    match field.Desc.Kind with
    | .Sfixed64Kind | .Sfixed32Kind | .Fixed32Kind | .Fixed64Kind | .DoubleKind | .FloatKind =>
      .ok ("fd(" ++ n ++ ", .FixedInt)")
    | .Sint32Kind | .Sint64Kind => .ok ("fd(" ++ n ++ ", .\x7b .Varint = .ZigZagOptimized \x7d)")
    | .Uint32Kind | .Uint64Kind | .BoolKind => .ok ("fd(" ++ n ++ ", .\x7b .Varint = .Simple \x7d)")
    | .StringKind | .BytesKind => .ok ("fd(" ++ n ++ ", .\x7b .List = .FixedInt \x7d)")
    | .MessageKind => .ok ("fd(" ++ n ++ ", .\x7b .SubMessage = \x7b\x7d \x7d)")
    | .EnumKind => .ok ("fd(" ++ n ++ ", .\x7b .Varint = .ZigZagOptimized \x7d)")
    | k => .error ("unmanaged field type in  getFieldDescriptor " ++ k.name)

/-! ## Emission -/

/-- The function `generateFieldDescriptor` of `main.go`: the file after the
call and the error returned. -/
def generateFieldDescriptor (field : Field) (g : GeneratedFile) : GeneratedFile × Option String :=
  match getFieldDescriptor field with
  | .error err => (g, some err)
  | .ok fieldDesc => (g.P ["        .", field.Desc.Name, " = ", fieldDesc, ","], none)

/-- The function `generateFieldDef` of `main.go`: the file after the call and
the error returned. -/
def generateFieldDef (field : Field) (g : GeneratedFile) : GeneratedFile × Option String :=
  match getFieldKindName field with
  | .error err => (g, some err)
  | .ok fieldKindName => (g.P ["    ", field.Desc.Name, ": ", fieldKindName, ","], none)

/-- The loop `for _, field := range m.Fields` over `generateFieldDef`, leaving
at the first error. -/
def fieldDefLoop : List Field → GeneratedFile → GeneratedFile × Option String
  | [], g => (g, none)
  | field :: rest, g =>
    match generateFieldDef field g with
    | (g1, some err) => (g1, some err)
    | (g1, none) => fieldDefLoop rest g1

/-- The loop `for _, field := range m.Fields` over `generateFieldDescriptor`,
leaving at the first error. -/
def fieldDescriptorLoop : List Field → GeneratedFile → GeneratedFile × Option String
  | [], g => (g, none)
  | field :: rest, g =>
    match generateFieldDescriptor field g with
    | (g1, some err) => (g1, some err)
    | (g1, none) => fieldDescriptorLoop rest g1

/-- The fixed lines printed at the start of every generated file. -/
def emitHeader (g : GeneratedFile) : GeneratedFile :=
  let g := g.P ["// Code generated by protoc-gen-zig"]
  let g := g.P []
  let g := g.P ["const std = @import(\"std\");"]
  let g := g.P ["const mem = std.mem;"]
  let g := g.P ["const Allocator = mem.Allocator;"]
  let g := g.P ["const ArrayList = std.ArrayList;"]
  let g := g.P []
  let g := g.P ["const protobuf = @import(\"protobuf\");"]
  let g := g.P ["const FieldDescriptor = protobuf.FieldDescriptor;"]
  let g := g.P ["const pb_decode = protobuf.pb_decode;"]
  let g := g.P ["const pb_encode = protobuf.pb_encode;"]
  let g := g.P ["const pb_deinit = protobuf.pb_deinit;"]
  let g := g.P ["const pb_init = protobuf.pb_init;"]
  let g := g.P ["const fd = protobuf.fd;"]
  g.P []

/-- The loop `for _, f := range m.Values` of the enum block. -/
def enumValuesLoop : List EnumValue → GeneratedFile → GeneratedFile
  | [], g => g
  | f :: rest, g => enumValuesLoop rest (g.P ["    ", f.Name, " = ", toString f.Number, ","])

/-- The body of the loop `for _, m := range f.Enums`. -/
def emitEnum (m : Enum) (g : GeneratedFile) : GeneratedFile :=
  let msgName := m.Name
  let g := g.P ["pub const ", msgName, " = enum(i32) \x7b"]
  let g := enumValuesLoop m.Values g
  let g := g.P ["    _,"]
  let g := g.P ["\x7d;"]
  g.P [""]

/-- The loop `for _, m := range f.Enums`. -/
def enumsLoop : List Enum → GeneratedFile → GeneratedFile
  | [], g => g
  | m :: rest, g => enumsLoop rest (emitEnum m g)

/-- The lines of a message block after its descriptor table: the end of the
table, the four delegating operations and the end of the struct. -/
def emitMessageTail (msgName : String) (g : GeneratedFile) : GeneratedFile :=
  let g := g.P ["    \x7d;"]
  let g := g.P []
  let g := g.P ["    pub fn encode(self: ", msgName, ", allocator: Allocator) ![]u8 \x7b"]
  let g := g.P ["        return pb_encode(self, allocator);"]
  let g := g.P ["    \x7d"]
  let g := g.P []
  let g := g.P ["    pub fn decode(input: []const u8, allocator: Allocator) !", msgName, " \x7b"]
  let g := g.P ["        return pb_decode(", msgName, ", input, allocator);"]
  let g := g.P ["    \x7d"]
  let g := g.P []
  let g := g.P ["    pub fn init(allocator: Allocator) ", msgName, " \x7b"]
  let g := g.P ["        return pb_init(", msgName, ", allocator);"]
  let g := g.P ["    \x7d"]
  let g := g.P []
  let g := g.P ["    pub fn deinit(self: ", msgName, ") void \x7b"]
  let g := g.P ["        return pb_deinit(self);"]
  let g := g.P ["    \x7d"]
  let g := g.P ["\x7d;"]
  g.P [""]

/-- The body of the loop `for _, m := range f.Messages`: the file after the
body and the error with which `generateFile` returns from inside it. -/
def emitMessage (m : Message) (g : GeneratedFile) : GeneratedFile × Option String :=
  let msgName := m.Name
  let g := g.P ["pub const ", msgName, " = struct \x7b"]
  match fieldDefLoop m.Fields g with
  | (g, some err) => (g, some err)
  | (g, none) =>
    let g := g.P []
    let g := g.P ["    pub const _desc_table = .\x7b"]
    match fieldDescriptorLoop m.Fields g with
    | (g, some err) => (g, some err)
    | (g, none) => (emitMessageTail msgName g, none)

/-- The loop `for _, m := range f.Messages`, leaving at the first error. -/
def messagesLoop : List Message → GeneratedFile → GeneratedFile × Option String
  | [], g => (g, none)
  | m :: rest, g =>
    match emitMessage m g with
    | (g1, some err) => (g1, some err)
    | (g1, none) => messagesLoop rest g1

/-- The method `NewGeneratedFile` of the plugin: a new empty file. The plugin
keeps a reference to it, so what is printed to it later is seen by the plugin;
`Plugin.register` records the file in its state at return. -/
def NewGeneratedFile (filename : String) : GeneratedFile :=
  { filename := filename, buf := [] }

/-- The plugin with the generated file `g` added after the files it holds. -/
def Plugin.register (p : Plugin) (g : GeneratedFile) : Plugin :=
  { genFiles := p.genFiles ++ [g] }

/-- The function `generateFile` of `main.go`: the plugin after the call and
the error returned (`none` for `nil`). -/
def generateFile (p : Plugin) (f : File) : Plugin × Option String :=
  if f.Messages.length = 0 then
    (p, none)
  else
    let filename := f.GeneratedFilenamePrefix ++ ".pb.zig"
    let g := NewGeneratedFile filename
    let g := emitHeader g
    let g := enumsLoop f.Enums g
    match messagesLoop f.Messages g with
    | (g, some err) => (p.register g, some err)
    | (g, none) => (p.register g, none)

/-! ## Closed forms used in the proofs -/

/-- The element type that the kind dispatch of `getFieldKindName` appends, by
kind; `none` for the kinds of the default branch. -/
def elementType (field : Field) : Option String :=
  match field.Desc.Kind with
  | .Sint32Kind | .Sfixed32Kind => some "i32"
  | .Uint32Kind | .Fixed32Kind => some "u32"
  | .Sint64Kind | .Sfixed64Kind => some "i64"
  | .Uint64Kind | .Fixed64Kind => some "u64"
  | .BoolKind => some "bool"
  | .DoubleKind => some "f64"
  | .FloatKind => some "f32"
  | .StringKind | .BytesKind => some "ArrayList(u8)"
  | .MessageKind => some field.MessageName
  | .EnumKind => some field.EnumName
  | _ => none

/-- The strategy text inside a descriptor, by kind and cardinality; `none` for
the combinations of the default branches of `getFieldDescriptor`. -/
def strategyText (k : Kind) (c : Cardinality) : Option String :=
  match c with
  | .repeated =>
    match k with
    | .StringKind | .BytesKind => some ".\x7b .List = .FixedInt \x7d"
    | .MessageKind => some ".\x7b .List = .SubMessage \x7d"
    | .EnumKind => some ".\x7b .List = .\x7b .Varint = .ZigZagOptimized \x7d \x7d"
    | _ => none
  | _ =>
    match k with
    | .Sfixed64Kind | .Sfixed32Kind | .Fixed32Kind | .Fixed64Kind | .DoubleKind | .FloatKind =>
      some ".FixedInt"
    | .Sint32Kind | .Sint64Kind | .EnumKind => some ".\x7b .Varint = .ZigZagOptimized \x7d"
    | .Uint32Kind | .Uint64Kind | .BoolKind => some ".\x7b .Varint = .Simple \x7d"
    | .StringKind | .BytesKind => some ".\x7b .List = .FixedInt \x7d"
    | .MessageKind => some ".\x7b .SubMessage = \x7b\x7d \x7d"
    | _ => none

/-! ## The lines of a unit, block by block -/

/-- The fifteen lines at the start of every unit. -/
def headerLines : List String :=
  ["// Code generated by protoc-gen-zig",
   "",
   "const std = @import(\"std\");",
   "const mem = std.mem;",
   "const Allocator = mem.Allocator;",
   "const ArrayList = std.ArrayList;",
   "",
   "const protobuf = @import(\"protobuf\");",
   "const FieldDescriptor = protobuf.FieldDescriptor;",
   "const pb_decode = protobuf.pb_decode;",
   "const pb_encode = protobuf.pb_encode;",
   "const pb_deinit = protobuf.pb_deinit;",
   "const pb_init = protobuf.pb_init;",
   "const fd = protobuf.fd;",
   ""]

/-- The line of one enum value: its name and its number. -/
def enumValueLine (v : EnumValue) : String :=
  "    " ++ v.Name ++ " = " ++ toString v.Number ++ ","

/-- The block of one enum: the opening line, one line per value in declaration
order, the catch-all line, the closing line and an empty line after it. -/
def enumBlock (m : Enum) : List String :=
  ["pub const " ++ m.Name ++ " = enum(i32) \x7b"] ++ m.Values.map enumValueLine ++
    ["    _,", "\x7d;", ""]

/-- The text of a mapper result; the empty string for an error. -/
def resultText (r : Except String String) : String :=
  match r with
  | .ok s => s
  | .error _ => ""

/-- The definition line of a field: its name and the type of `getFieldKindName`. -/
def fieldDefLine (field : Field) : String :=
  "    " ++ field.Desc.Name ++ ": " ++ resultText (getFieldKindName field) ++ ","

/-- The table line of a field: its name and the descriptor of `getFieldDescriptor`. -/
def fieldTableLine (field : Field) : String :=
  "        ." ++ field.Desc.Name ++ " = " ++ resultText (getFieldDescriptor field) ++ ","

/-- The lines that close a message block: the end of the table, the four
delegating operations, the end of the struct and an empty line after it. -/
def messageTailLines (msgName : String) : List String :=
  ["    \x7d;",
   "",
   "    pub fn encode(self: " ++ msgName ++ ", allocator: Allocator) ![]u8 \x7b",
   "        return pb_encode(self, allocator);",
   "    \x7d",
   "",
   "    pub fn decode(input: []const u8, allocator: Allocator) !" ++ msgName ++ " \x7b",
   "        return pb_decode(" ++ msgName ++ ", input, allocator);",
   "    \x7d",
   "",
   "    pub fn init(allocator: Allocator) " ++ msgName ++ " \x7b",
   "        return pb_init(" ++ msgName ++ ", allocator);",
   "    \x7d",
   "",
   "    pub fn deinit(self: " ++ msgName ++ ") void \x7b",
   "        return pb_deinit(self);",
   "    \x7d",
   "\x7d;",
   ""]

/-- The block of one message: the opening line, one definition line per field,
an empty line, the opening of the table, one table line per field, and the
closing lines. -/
def messageBlock (m : Message) : List String :=
  ["pub const " ++ m.Name ++ " = struct \x7b"] ++ m.Fields.map fieldDefLine ++
    ["", "    pub const _desc_table = .\x7b"] ++ m.Fields.map fieldTableLine ++
    messageTailLines m.Name

/-- The mapper calls of a file in emission order: message after message, and
within a message `getFieldKindName` on every field, then `getFieldDescriptor`
on every field. -/
def mapperCalls (f : File) : List (Except String String) :=
  f.Messages.flatMap fun m => m.Fields.map getFieldKindName ++ m.Fields.map getFieldDescriptor

/-- The error of the first failing call of a sequence of calls, if any. -/
def firstError : List (Except String String) → Option String
  | [] => none
  | .error e :: _ => some e
  | .ok _ :: rest => firstError rest

/-! ## Lemmas on strings -/

/-- Appending to the same string on the left is injective. -/
theorem string_append_left_cancel (a b c : String) (h : a ++ b = a ++ c) : b = c := by
  have h1 : (a ++ b).data = (a ++ c).data := by rw [h]
  rw [String.data_append, String.data_append] at h1
  exact String.ext (List.append_cancel_left h1)

/-! ## Closed forms of the mappers -/

/-- The result of `getFieldDescriptor` in terms of `strategyText`. -/
theorem getFieldDescriptor_eq_strategy (field : Field) :
    getFieldDescriptor field =
      match strategyText field.Desc.Kind field.Desc.Cardinality with
      | some s => .ok ("fd(" ++ toString field.Desc.Number ++ (", " ++ s ++ ")"))
      | none => .error ("unmanaged field type in  getFieldDescriptor " ++ field.Desc.Kind.name) := by
  obtain ⟨⟨name, num, kind, card, addr⟩, mn, en⟩ := field
  cases card <;> cases kind <;> rfl

/-- The result of `getFieldKindName` on a field that is not a map, in terms of
`elementType`. -/
theorem getFieldKindName_eq_elementType (field : Field) (h : field.Desc.Cardinality ≠ .map) :
    getFieldKindName field =
      match elementType field with
      | some T =>
        .ok (if field.Desc.Cardinality = .repeated then "?ArrayList(" ++ T ++ ")" else "?" ++ T)
      | none => .error ("unmanaged field type in getFieldKindName " ++ field.Desc.Kind.name) := by
  obtain ⟨⟨name, num, kind, card, addr⟩, mn, en⟩ := field
  cases card
  · cases kind <;> rfl
  · cases kind <;>
      simp [getFieldKindName, elementType, FieldDescriptor.IsMap, FieldDescriptor.IsList,
        String.append_assoc]
  · exact absurd rfl h

/-! ## The file name is never touched by printing -/

@[simp]
theorem P_filename (g : GeneratedFile) (v : List String) :
    (g.P v).filename = g.filename := rfl

@[simp]
theorem generateFieldDef_filename (field : Field) (g : GeneratedFile) :
    (generateFieldDef field g).1.filename = g.filename := by
  unfold generateFieldDef
  cases getFieldKindName field <;> rfl

@[simp]
theorem generateFieldDescriptor_filename (field : Field) (g : GeneratedFile) :
    (generateFieldDescriptor field g).1.filename = g.filename := by
  unfold generateFieldDescriptor
  cases getFieldDescriptor field <;> rfl

@[simp]
theorem fieldDefLoop_filename (fields : List Field) (g : GeneratedFile) :
    (fieldDefLoop fields g).1.filename = g.filename := by
  induction fields generalizing g with
  | nil => rfl
  | cons field rest ih =>
    have h := generateFieldDef_filename field g
    unfold fieldDefLoop
    rcases hgen : generateFieldDef field g with ⟨g1, _ | err⟩
    · rw [hgen] at h
      simpa [ih] using h
    · rw [hgen] at h
      simpa using h

@[simp]
theorem fieldDescriptorLoop_filename (fields : List Field) (g : GeneratedFile) :
    (fieldDescriptorLoop fields g).1.filename = g.filename := by
  induction fields generalizing g with
  | nil => rfl
  | cons field rest ih =>
    have h := generateFieldDescriptor_filename field g
    unfold fieldDescriptorLoop
    rcases hgen : generateFieldDescriptor field g with ⟨g1, _ | err⟩
    · rw [hgen] at h
      simpa [ih] using h
    · rw [hgen] at h
      simpa using h

@[simp]
theorem emitHeader_filename (g : GeneratedFile) :
    (emitHeader g).filename = g.filename := by
  simp [emitHeader]

@[simp]
theorem enumValuesLoop_filename (vs : List EnumValue) (g : GeneratedFile) :
    (enumValuesLoop vs g).filename = g.filename := by
  induction vs generalizing g with
  | nil => rfl
  | cons v rest ih => simp [enumValuesLoop, ih]

@[simp]
theorem emitEnum_filename (m : Enum) (g : GeneratedFile) :
    (emitEnum m g).filename = g.filename := by
  simp [emitEnum]

@[simp]
theorem enumsLoop_filename (es : List Enum) (g : GeneratedFile) :
    (enumsLoop es g).filename = g.filename := by
  induction es generalizing g with
  | nil => rfl
  | cons m rest ih => simp [enumsLoop, ih]

@[simp]
theorem emitMessageTail_filename (msgName : String) (g : GeneratedFile) :
    (emitMessageTail msgName g).filename = g.filename := by
  simp [emitMessageTail]

@[simp]
theorem emitMessage_filename (m : Message) (g : GeneratedFile) :
    (emitMessage m g).1.filename = g.filename := by
  unfold emitMessage
  simp only
  have h1 := fieldDefLoop_filename m.Fields (g.P ["pub const ", m.Name, " = struct \x7b"])
  rcases hdef : fieldDefLoop m.Fields (g.P ["pub const ", m.Name, " = struct \x7b"])
    with ⟨g1, _ | err⟩
  · rw [hdef] at h1
    simp only at h1 ⊢
    have h2 := fieldDescriptorLoop_filename m.Fields
      ((g1.P []).P ["    pub const _desc_table = .\x7b"])
    rcases hdesc : fieldDescriptorLoop m.Fields
      ((g1.P []).P ["    pub const _desc_table = .\x7b"]) with ⟨g2, _ | err⟩
    · rw [hdesc] at h2
      simp only [P_filename] at h2
      simp only [emitMessageTail_filename]
      rw [h2, h1, P_filename]
    · rw [hdesc] at h2
      simp only [P_filename] at h2
      simp only
      rw [h2, h1, P_filename]
  · rw [hdef] at h1
    simpa using h1

@[simp]
theorem messagesLoop_filename (ms : List Message) (g : GeneratedFile) :
    (messagesLoop ms g).1.filename = g.filename := by
  induction ms generalizing g with
  | nil => rfl
  | cons m rest ih =>
    have h := emitMessage_filename m g
    unfold messagesLoop
    rcases hm : emitMessage m g with ⟨g1, _ | err⟩
    · rw [hm] at h
      simpa [ih] using h
    · rw [hm] at h
      simpa using h

/-! ## When the loops succeed and which error they return -/

theorem fieldDefLoop_none_iff (fields : List Field) (g : GeneratedFile) :
    (fieldDefLoop fields g).2 = none ↔ ∀ field ∈ fields, (getFieldKindName field).isOk = true := by
  induction fields generalizing g with
  | nil => simp [fieldDefLoop]
  | cons field rest ih =>
    unfold fieldDefLoop generateFieldDef
    cases h : getFieldKindName field with
    | error e => simp [Except.isOk, Except.toBool, h]
    | ok r => simp [Except.isOk, Except.toBool, h, ih]

theorem fieldDefLoop_some (fields : List Field) (g : GeneratedFile) (e : String)
    (h : (fieldDefLoop fields g).2 = some e) :
    ∃ field ∈ fields, getFieldKindName field = .error e := by
  induction fields generalizing g with
  | nil => simp [fieldDefLoop] at h
  | cons field rest ih =>
    unfold fieldDefLoop generateFieldDef at h
    cases hk : getFieldKindName field with
    | error e0 =>
      rw [hk] at h
      simp only [Option.some.injEq] at h
      exact ⟨field, List.mem_cons_self _ _, h ▸ hk⟩
    | ok r =>
      rw [hk] at h
      obtain ⟨f1, hf1, he⟩ := ih _ h
      exact ⟨f1, List.mem_cons_of_mem _ hf1, he⟩

theorem fieldDescriptorLoop_none_iff (fields : List Field) (g : GeneratedFile) :
    (fieldDescriptorLoop fields g).2 = none ↔
      ∀ field ∈ fields, (getFieldDescriptor field).isOk = true := by
  induction fields generalizing g with
  | nil => simp [fieldDescriptorLoop]
  | cons field rest ih =>
    unfold fieldDescriptorLoop generateFieldDescriptor
    cases h : getFieldDescriptor field with
    | error e => simp [Except.isOk, Except.toBool, h]
    | ok r => simp [Except.isOk, Except.toBool, h, ih]

theorem fieldDescriptorLoop_some (fields : List Field) (g : GeneratedFile) (e : String)
    (h : (fieldDescriptorLoop fields g).2 = some e) :
    ∃ field ∈ fields, getFieldDescriptor field = .error e := by
  induction fields generalizing g with
  | nil => simp [fieldDescriptorLoop] at h
  | cons field rest ih =>
    unfold fieldDescriptorLoop generateFieldDescriptor at h
    cases hk : getFieldDescriptor field with
    | error e0 =>
      rw [hk] at h
      simp only [Option.some.injEq] at h
      exact ⟨field, List.mem_cons_self _ _, h ▸ hk⟩
    | ok r =>
      rw [hk] at h
      obtain ⟨f1, hf1, he⟩ := ih _ h
      exact ⟨f1, List.mem_cons_of_mem _ hf1, he⟩

theorem emitMessage_none_iff (m : Message) (g : GeneratedFile) :
    (emitMessage m g).2 = none ↔
      ∀ field ∈ m.Fields,
        (getFieldKindName field).isOk = true ∧ (getFieldDescriptor field).isOk = true := by
  unfold emitMessage
  simp only
  have h1 := fieldDefLoop_none_iff m.Fields (g.P ["pub const ", m.Name, " = struct \x7b"])
  rcases hdef : fieldDefLoop m.Fields (g.P ["pub const ", m.Name, " = struct \x7b"])
    with ⟨g1, _ | err⟩
  · rw [hdef] at h1
    simp only
    have h2 := fieldDescriptorLoop_none_iff m.Fields
      ((g1.P []).P ["    pub const _desc_table = .\x7b"])
    rcases hdesc : fieldDescriptorLoop m.Fields
      ((g1.P []).P ["    pub const _desc_table = .\x7b"]) with ⟨g2, _ | err⟩
    · rw [hdesc] at h2
      simp only [true_iff] at h1 h2 ⊢
      exact fun field hf => ⟨h1 field hf, h2 field hf⟩
    · rw [hdesc] at h2
      simp only [false_iff, reduceCtorEq] at h2 ⊢
      exact fun hall => h2 (fun field hf => (hall field hf).2)
  · rw [hdef] at h1
    simp only [false_iff, reduceCtorEq] at h1 ⊢
    exact fun hall => h1 (fun field hf => (hall field hf).1)

theorem emitMessage_some (m : Message) (g : GeneratedFile) (e : String)
    (h : (emitMessage m g).2 = some e) :
    ∃ field ∈ m.Fields, getFieldKindName field = .error e ∨ getFieldDescriptor field = .error e := by
  unfold emitMessage at h
  simp only at h
  rcases hdef : fieldDefLoop m.Fields (g.P ["pub const ", m.Name, " = struct \x7b"])
    with ⟨g1, _ | err⟩
  · rw [hdef] at h
    simp only at h
    rcases hdesc : fieldDescriptorLoop m.Fields
      ((g1.P []).P ["    pub const _desc_table = .\x7b"]) with ⟨g2, _ | err⟩
    · rw [hdesc] at h
      simp at h
    · rw [hdesc] at h
      have h3 : (fieldDescriptorLoop m.Fields
          ((g1.P []).P ["    pub const _desc_table = .\x7b"])).2 = some e := by
        rw [hdesc]; exact h
      obtain ⟨f1, hf1, he⟩ := fieldDescriptorLoop_some _ _ _ h3
      exact ⟨f1, hf1, Or.inr he⟩
  · rw [hdef] at h
    have h3 : (fieldDefLoop m.Fields (g.P ["pub const ", m.Name, " = struct \x7b"])).2 =
        some e := by
      rw [hdef]; exact h
    obtain ⟨f1, hf1, he⟩ := fieldDefLoop_some _ _ _ h3
    exact ⟨f1, hf1, Or.inl he⟩

theorem messagesLoop_none_iff (ms : List Message) (g : GeneratedFile) :
    (messagesLoop ms g).2 = none ↔
      ∀ m ∈ ms, ∀ field ∈ m.Fields,
        (getFieldKindName field).isOk = true ∧ (getFieldDescriptor field).isOk = true := by
  induction ms generalizing g with
  | nil => simp [messagesLoop]
  | cons m rest ih =>
    have h1 := emitMessage_none_iff m g
    unfold messagesLoop
    rcases hm : emitMessage m g with ⟨g1, _ | err⟩
    · rw [hm] at h1
      simp only [true_iff] at h1
      simp only [ih, List.mem_cons, forall_eq_or_imp]
      exact ⟨fun h => ⟨h1, h⟩, fun h => h.2⟩
    · rw [hm] at h1
      simp only [false_iff, reduceCtorEq] at h1
      simp only [List.mem_cons, forall_eq_or_imp, false_iff, reduceCtorEq]
      exact fun h => h1 h.1

theorem messagesLoop_some (ms : List Message) (g : GeneratedFile) (e : String)
    (h : (messagesLoop ms g).2 = some e) :
    ∃ m ∈ ms, ∃ field ∈ m.Fields,
      getFieldKindName field = .error e ∨ getFieldDescriptor field = .error e := by
  induction ms generalizing g with
  | nil => simp [messagesLoop] at h
  | cons m rest ih =>
    unfold messagesLoop at h
    rcases hm : emitMessage m g with ⟨g1, _ | err⟩
    · rw [hm] at h
      obtain ⟨m1, hm1, hrest⟩ := ih _ h
      exact ⟨m1, List.mem_cons_of_mem _ hm1, hrest⟩
    · rw [hm] at h
      have h3 : (emitMessage m g).2 = some e := by rw [hm]; exact h
      exact ⟨m, List.mem_cons_self _ _, emitMessage_some _ _ _ h3⟩

/-- The error returned by `generateFile` is that of the loop over the messages. -/
theorem generateFile_err (p : Plugin) (f : File) :
    (generateFile p f).2 =
      (messagesLoop f.Messages
        (enumsLoop f.Enums (emitHeader (NewGeneratedFile (f.GeneratedFilenamePrefix ++ ".pb.zig"))))).2 := by
  unfold generateFile
  cases hms : f.Messages with
  | nil => simp [messagesLoop]
  | cons m rest =>
    simp only [List.length_cons, Nat.add_one_ne_zero, if_false]
    rcases messagesLoop (m :: rest) (enumsLoop f.Enums
      (emitHeader (NewGeneratedFile (f.GeneratedFilenamePrefix ++ ".pb.zig")))) with ⟨g1, _ | err⟩ <;> rfl

/-- The plugin after `generateFile` on a file with a message: the file of the
loop over the messages is registered after the files the plugin held, also
when an error is returned. -/
theorem generateFile_plugin (p : Plugin) (f : File) (h : f.Messages ≠ []) :
    (generateFile p f).1 =
      p.register (messagesLoop f.Messages
        (enumsLoop f.Enums (emitHeader (NewGeneratedFile (f.GeneratedFilenamePrefix ++ ".pb.zig"))))).1 := by
  unfold generateFile
  cases hms : f.Messages with
  | nil => exact absurd hms h
  | cons m rest =>
    simp only [List.length_cons, Nat.add_one_ne_zero, if_false]
    rcases messagesLoop (m :: rest) (enumsLoop f.Enums
      (emitHeader (NewGeneratedFile (f.GeneratedFilenamePrefix ++ ".pb.zig")))) with ⟨g1, _ | err⟩ <;> rfl

/-- The two errors of `getFieldKindName`. -/
theorem getFieldKindName_error (field : Field) (e : String)
    (h : getFieldKindName field = .error e) :
    (field.Desc.Cardinality = .map ∧
      e = "Maps are not supported, field type: " ++ fmtNameMethod field.Desc.NameAddr) ∨
    (field.Desc.Cardinality ≠ .map ∧
      field.Desc.Kind ∈ [Kind.Int32Kind, .Int64Kind, .GroupKind] ∧
      e = "unmanaged field type in getFieldKindName " ++ field.Desc.Kind.name) := by
  obtain ⟨⟨name, num, kind, card, addr⟩, mn, en⟩ := field
  cases card <;> cases kind <;>
    simp [getFieldKindName, FieldDescriptor.IsMap, FieldDescriptor.IsList] at h ⊢ <;>
    exact h.symm

/-- The error of `getFieldDescriptor`. -/
theorem getFieldDescriptor_error (field : Field) (e : String)
    (h : getFieldDescriptor field = .error e) :
    e = "unmanaged field type in  getFieldDescriptor " ++ field.Desc.Kind.name := by
  obtain ⟨⟨name, num, kind, card, addr⟩, mn, en⟩ := field
  cases card <;> cases kind <;>
    simp [getFieldDescriptor, FieldDescriptor.IsList] at h ⊢ <;>
    exact h.symm

/-! ## Theorems: the wire descriptor mapper -/

/-- C1: for a field that is not a list, `getFieldDescriptor` returns the
fixed-width descriptor for the fixed and floating kinds, the zigzag varint for
sint32, sint64 and enum, the simple varint for uint32, uint64 and bool, the
list of fixed integers for string and bytes, the sub-message descriptor for
message, each carrying the field number, and fails with the unmanaged
field type error for every other kind (int32, int64, group). -/
theorem getFieldDescriptor_singular (field : Field) (h : field.Desc.IsList = false) :
    (field.Desc.Kind ∈ [Kind.Fixed32Kind, .Fixed64Kind, .Sfixed32Kind, .Sfixed64Kind,
        .DoubleKind, .FloatKind] →
      getFieldDescriptor field = .ok ("fd(" ++ toString field.Desc.Number ++ ", .FixedInt)")) ∧
    (field.Desc.Kind ∈ [Kind.Sint32Kind, .Sint64Kind, .EnumKind] →
      getFieldDescriptor field =
        .ok ("fd(" ++ toString field.Desc.Number ++ ", .\x7b .Varint = .ZigZagOptimized \x7d)")) ∧
    (field.Desc.Kind ∈ [Kind.Uint32Kind, .Uint64Kind, .BoolKind] →
      getFieldDescriptor field =
        .ok ("fd(" ++ toString field.Desc.Number ++ ", .\x7b .Varint = .Simple \x7d)")) ∧
    (field.Desc.Kind ∈ [Kind.StringKind, .BytesKind] →
      getFieldDescriptor field =
        .ok ("fd(" ++ toString field.Desc.Number ++ ", .\x7b .List = .FixedInt \x7d)")) ∧
    (field.Desc.Kind = .MessageKind →
      getFieldDescriptor field =
        .ok ("fd(" ++ toString field.Desc.Number ++ ", .\x7b .SubMessage = \x7b\x7d \x7d)")) ∧
    (field.Desc.Kind ∉ [Kind.Fixed32Kind, .Fixed64Kind, .Sfixed32Kind, .Sfixed64Kind,
        .DoubleKind, .FloatKind, .Sint32Kind, .Sint64Kind, .EnumKind, .Uint32Kind,
        .Uint64Kind, .BoolKind, .StringKind, .BytesKind, .MessageKind] →
      getFieldDescriptor field =
        .error ("unmanaged field type in  getFieldDescriptor " ++ field.Desc.Kind.name)) ∧
    (field.Desc.Kind ∈ [Kind.Int32Kind, .Int64Kind, .GroupKind] →
      getFieldDescriptor field =
        .error ("unmanaged field type in  getFieldDescriptor " ++ field.Desc.Kind.name)) := by
  obtain ⟨⟨name, num, kind, card, addr⟩, mn, en⟩ := field
  simp only at h ⊢
  cases kind <;> simp [getFieldDescriptor, h]

/-- Witness of C1 at the singular sfixed32 field number 7 and the singular
int32 field number 8. -/
theorem getFieldDescriptor_singular_witness :
    getFieldDescriptor ⟨⟨"a", 7, .Sfixed32Kind, .singular, 0⟩, "", ""⟩ = .ok "fd(7, .FixedInt)" ∧
    getFieldDescriptor ⟨⟨"b", 8, .Int32Kind, .singular, 0⟩, "", ""⟩ =
      .error "unmanaged field type in  getFieldDescriptor int32" :=
  ⟨(getFieldDescriptor_singular ⟨⟨"a", 7, .Sfixed32Kind, .singular, 0⟩, "", ""⟩ rfl).1
      (by decide),
   (getFieldDescriptor_singular ⟨⟨"b", 8, .Int32Kind, .singular, 0⟩, "", ""⟩ rfl).2.2.2.2.2.2
      (by decide)⟩

/-- C2: for a list field, `getFieldDescriptor` returns the list of fixed
integers for string and bytes, the list of sub-messages for message, the list
of zigzag varints for enum, and fails for every other kind, so for every
repeated numeric or bool field; for string and bytes the result is that of the
singular field with the same number. -/
theorem getFieldDescriptor_repeated (field : Field) (h : field.Desc.IsList = true) :
    (field.Desc.Kind ∈ [Kind.StringKind, .BytesKind] →
      getFieldDescriptor field =
        .ok ("fd(" ++ toString field.Desc.Number ++ ", .\x7b .List = .FixedInt \x7d)")) ∧
    (field.Desc.Kind = .MessageKind →
      getFieldDescriptor field =
        .ok ("fd(" ++ toString field.Desc.Number ++ ", .\x7b .List = .SubMessage \x7d)")) ∧
    (field.Desc.Kind = .EnumKind →
      getFieldDescriptor field =
        .ok ("fd(" ++ toString field.Desc.Number ++
          ", .\x7b .List = .\x7b .Varint = .ZigZagOptimized \x7d \x7d)")) ∧
    (field.Desc.Kind ∉ [Kind.StringKind, .BytesKind, .MessageKind, .EnumKind] →
      getFieldDescriptor field =
        .error ("unmanaged field type in  getFieldDescriptor " ++ field.Desc.Kind.name)) ∧
    (field.Desc.Kind ∈ [Kind.BoolKind, .Int32Kind, .Sint32Kind, .Uint32Kind, .Int64Kind,
        .Sint64Kind, .Uint64Kind, .Sfixed32Kind, .Fixed32Kind, .FloatKind, .Sfixed64Kind,
        .Fixed64Kind, .DoubleKind] →
      ∃ e, getFieldDescriptor field = .error e) ∧
    (field.Desc.Kind ∈ [Kind.StringKind, .BytesKind] →
      getFieldDescriptor field = getFieldDescriptor (field.withCardinality .singular)) := by
  obtain ⟨⟨name, num, kind, card, addr⟩, mn, en⟩ := field
  have hc : card = .repeated := by simpa [FieldDescriptor.IsList] using h
  subst hc
  cases kind <;> simp [getFieldDescriptor, Field.withCardinality, FieldDescriptor.IsList]

/-- Witness of C2 at the repeated string field number 2 and the repeated
sint32 field number 4. -/
theorem getFieldDescriptor_repeated_witness :
    getFieldDescriptor ⟨⟨"tags", 2, .StringKind, .repeated, 0⟩, "", ""⟩ =
      .ok "fd(2, .\x7b .List = .FixedInt \x7d)" ∧
    getFieldDescriptor ⟨⟨"xs", 4, .Sint32Kind, .repeated, 0⟩, "", ""⟩ =
      .error "unmanaged field type in  getFieldDescriptor sint32" :=
  ⟨(getFieldDescriptor_repeated ⟨⟨"tags", 2, .StringKind, .repeated, 0⟩, "", ""⟩ rfl).1
      (by decide),
   (getFieldDescriptor_repeated ⟨⟨"xs", 4, .Sint32Kind, .repeated, 0⟩, "", ""⟩ rfl).2.2.2.1
      (by decide)⟩

/-- C7: a descriptor is `fd(`, the decimal field number, `, `, a strategy text
and `)`, where the strategy text, and whether there is one, is a function of
the kind and the cardinality alone; changing the number of a field changes
neither success nor failure, and the descriptor of the renumbered field is
the same text around the new number. -/
theorem getFieldDescriptor_number_frame :
    ∃ S : Kind → Cardinality → Option String,
      (∀ field : Field,
        getFieldDescriptor field =
          match S field.Desc.Kind field.Desc.Cardinality with
          | some s => .ok ("fd(" ++ toString field.Desc.Number ++ ", " ++ s ++ ")")
          | none =>
            .error ("unmanaged field type in  getFieldDescriptor " ++ field.Desc.Kind.name)) ∧
      (∀ (field : Field) (n : Int),
        (getFieldDescriptor (field.withNumber n)).isOk = (getFieldDescriptor field).isOk) ∧
      (∀ (field : Field) (n : Int) (s : String),
        getFieldDescriptor field = .ok ("fd(" ++ toString field.Desc.Number ++ ", " ++ s ++ ")") →
        getFieldDescriptor (field.withNumber n) = .ok ("fd(" ++ toString n ++ ", " ++ s ++ ")")) := by
  refine ⟨strategyText, ?_, ?_, ?_⟩
  · intro field
    rw [getFieldDescriptor_eq_strategy]
    cases strategyText field.Desc.Kind field.Desc.Cardinality <;> simp [String.append_assoc]
  · intro field n
    rw [getFieldDescriptor_eq_strategy, getFieldDescriptor_eq_strategy]
    simp only [Field.withNumber]
    cases strategyText field.Desc.Kind field.Desc.Cardinality <;> rfl
  · intro field n s
    rw [getFieldDescriptor_eq_strategy, getFieldDescriptor_eq_strategy]
    simp only [Field.withNumber]
    cases strategyText field.Desc.Kind field.Desc.Cardinality with
    | none => intro h; cases h
    | some s0 =>
      intro h
      have h1 : "fd(" ++ toString field.Desc.Number ++ (", " ++ s0 ++ ")") =
          "fd(" ++ toString field.Desc.Number ++ (", " ++ s ++ ")") := by
        simpa [String.append_assoc] using h
      have h2 := string_append_left_cancel _ _ _ h1
      simp only [String.append_assoc] at h2 ⊢
      rw [h2]

/-! ## Theorems: the type mapper -/

/-- C3: for a singular field, `getFieldKindName` returns the optional type
`?T`, where `T` is `i32` for sint32 and sfixed32, `u32` for uint32 and fixed32,
`i64` for sint64 and sfixed64, `u64` for uint64 and fixed64, `bool`, `f64` for
double, `f32` for float, `ArrayList(u8)` for string and bytes, the name of the
referenced message or enum for a message or enum kind, and fails for every
other kind (int32, int64, group). -/
theorem getFieldKindName_singular (field : Field)
    (h : field.Desc.Cardinality = .singular) :
    (field.Desc.Kind ∈ [Kind.Sint32Kind, .Sfixed32Kind] → getFieldKindName field = .ok "?i32") ∧
    (field.Desc.Kind ∈ [Kind.Uint32Kind, .Fixed32Kind] → getFieldKindName field = .ok "?u32") ∧
    (field.Desc.Kind ∈ [Kind.Sint64Kind, .Sfixed64Kind] → getFieldKindName field = .ok "?i64") ∧
    (field.Desc.Kind ∈ [Kind.Uint64Kind, .Fixed64Kind] → getFieldKindName field = .ok "?u64") ∧
    (field.Desc.Kind = .BoolKind → getFieldKindName field = .ok "?bool") ∧
    (field.Desc.Kind = .DoubleKind → getFieldKindName field = .ok "?f64") ∧
    (field.Desc.Kind = .FloatKind → getFieldKindName field = .ok "?f32") ∧
    (field.Desc.Kind ∈ [Kind.StringKind, .BytesKind] →
      getFieldKindName field = .ok "?ArrayList(u8)") ∧
    (field.Desc.Kind = .MessageKind → getFieldKindName field = .ok ("?" ++ field.MessageName)) ∧
    (field.Desc.Kind = .EnumKind → getFieldKindName field = .ok ("?" ++ field.EnumName)) ∧
    (field.Desc.Kind ∉ [Kind.Sint32Kind, .Sfixed32Kind, .Uint32Kind, .Fixed32Kind, .Sint64Kind,
        .Sfixed64Kind, .Uint64Kind, .Fixed64Kind, .BoolKind, .DoubleKind, .FloatKind,
        .StringKind, .BytesKind, .MessageKind, .EnumKind] →
      getFieldKindName field =
        .error ("unmanaged field type in getFieldKindName " ++ field.Desc.Kind.name)) ∧
    (field.Desc.Kind ∈ [Kind.Int32Kind, .Int64Kind, .GroupKind] →
      getFieldKindName field =
        .error ("unmanaged field type in getFieldKindName " ++ field.Desc.Kind.name)) := by
  obtain ⟨⟨name, num, kind, card, addr⟩, mn, en⟩ := field
  simp only at h
  subst h
  cases kind <;>
    simp [getFieldKindName, FieldDescriptor.IsMap, FieldDescriptor.IsList]

/-- Witness of C3 at a singular sint64 field, a singular message field and
a singular int64 field. -/
theorem getFieldKindName_singular_witness :
    getFieldKindName ⟨⟨"id", 1, .Sint64Kind, .singular, 0⟩, "", ""⟩ = .ok "?i64" ∧
    getFieldKindName ⟨⟨"o", 2, .MessageKind, .singular, 0⟩, "Order", ""⟩ = .ok "?Order" ∧
    getFieldKindName ⟨⟨"n", 3, .Int64Kind, .singular, 0⟩, "", ""⟩ =
      .error "unmanaged field type in getFieldKindName int64" :=
  ⟨(getFieldKindName_singular ⟨⟨"id", 1, .Sint64Kind, .singular, 0⟩, "", ""⟩ rfl).2.2.1
      (by decide),
   (getFieldKindName_singular ⟨⟨"o", 2, .MessageKind, .singular, 0⟩, "Order", ""⟩
      rfl).2.2.2.2.2.2.2.2.1 rfl,
   (getFieldKindName_singular ⟨⟨"n", 3, .Int64Kind, .singular, 0⟩, "", ""⟩
      rfl).2.2.2.2.2.2.2.2.2.2.2 (by decide)⟩

/-- C4: for a repeated field whose kind is not string or bytes,
`getFieldKindName` succeeds exactly when it succeeds for the singular field of
the same kind, and when the singular result is `?T` the repeated result is
`?ArrayList(T)`: the sequence wrapper is applied once, around the element
type. -/
theorem getFieldKindName_repeated_wraps (field : Field)
    (hrep : field.Desc.Cardinality = .repeated)
    (_hkind : field.Desc.Kind ∉ [Kind.StringKind, .BytesKind]) :
    ((getFieldKindName field).isOk = (getFieldKindName (field.withCardinality .singular)).isOk) ∧
    (∀ T : String, getFieldKindName (field.withCardinality .singular) = .ok ("?" ++ T) →
      getFieldKindName field = .ok ("?ArrayList(" ++ T ++ ")")) ∧
    (∀ r : String, getFieldKindName (field.withCardinality .singular) = .ok r →
      ∃ T, r = "?" ++ T ∧ getFieldKindName field = .ok ("?ArrayList(" ++ T ++ ")")) := by
  have hne : field.Desc.Cardinality ≠ .map := by rw [hrep]; decide
  have hs : (field.withCardinality .singular).Desc.Cardinality ≠ .map := by
    simp [Field.withCardinality]
  rw [getFieldKindName_eq_elementType field hne,
    getFieldKindName_eq_elementType (field.withCardinality .singular) hs]
  have he : elementType (field.withCardinality .singular) = elementType field := rfl
  have hc : (field.withCardinality .singular).Desc.Cardinality = .singular := rfl
  have hk : (field.withCardinality .singular).Desc.Kind = field.Desc.Kind := rfl
  rw [he, hc, hk, hrep]
  cases elementType field with
  | none =>
    refine ⟨rfl, ?_, ?_⟩
    · intro T h; cases h
    · intro r h; cases h
  | some T0 =>
    refine ⟨rfl, ?_, ?_⟩
    · intro T h
      have h1 : "?" ++ T0 = "?" ++ T := by simpa using h
      rw [string_append_left_cancel _ _ _ h1]
      simp
    · intro r h
      refine ⟨T0, ?_, by simp⟩
      have h1 : "?" ++ T0 = r := by simpa using h
      exact h1.symm

/-- Witness of C4 at a repeated sint32 field and a repeated int32 field. -/
theorem getFieldKindName_repeated_wraps_witness :
    getFieldKindName ⟨⟨"xs", 4, .Sint32Kind, .repeated, 0⟩, "", ""⟩ = .ok "?ArrayList(i32)" ∧
    (getFieldKindName ⟨⟨"ys", 5, .Int32Kind, .repeated, 0⟩, "", ""⟩).isOk =
      (getFieldKindName ⟨⟨"ys", 5, .Int32Kind, .singular, 0⟩, "", ""⟩).isOk :=
  ⟨(getFieldKindName_repeated_wraps ⟨⟨"xs", 4, .Sint32Kind, .repeated, 0⟩, "", ""⟩ rfl
      (by decide)).2.1 "i32" rfl,
   (getFieldKindName_repeated_wraps ⟨⟨"ys", 5, .Int32Kind, .repeated, 0⟩, "", ""⟩ rfl
      (by decide)).1⟩

/-- C5, as stated, fails: a repeated string field and the singular string
field of the same name and number get different types, and the type of the
repeated one is a sequence of sequences. -/
theorem getFieldKindName_repeated_string_differs :
    getFieldKindName ⟨⟨"tags", 2, .StringKind, .repeated, 0⟩, "", ""⟩ ≠
      getFieldKindName ⟨⟨"tags", 2, .StringKind, .singular, 0⟩, "", ""⟩ ∧
    getFieldKindName ⟨⟨"tags", 2, .StringKind, .repeated, 0⟩, "", ""⟩ =
      .ok "?ArrayList(ArrayList(u8))" ∧
    getFieldKindName ⟨⟨"tags", 2, .StringKind, .singular, 0⟩, "", ""⟩ = .ok "?ArrayList(u8)" := by
  decide

/-- C5, amended: for the string and bytes kinds the type depends on the
cardinality like for every other kind: a singular field maps to
`?ArrayList(u8)` and a repeated field to `?ArrayList(ArrayList(u8))`, whatever
the name and the number of the field. -/
theorem getFieldKindName_string_bytes (field : Field)
    (hkind : field.Desc.Kind ∈ [Kind.StringKind, .BytesKind]) :
    (field.Desc.Cardinality = .singular → getFieldKindName field = .ok "?ArrayList(u8)") ∧
    (field.Desc.Cardinality = .repeated →
      getFieldKindName field = .ok "?ArrayList(ArrayList(u8))") := by
  obtain ⟨⟨name, num, kind, card, addr⟩, mn, en⟩ := field
  simp only at hkind ⊢
  cases kind <;> simp at hkind <;>
    cases card <;> simp [getFieldKindName, FieldDescriptor.IsMap, FieldDescriptor.IsList]

/-- Witness of the amended C5 at a repeated bytes field. -/
theorem getFieldKindName_string_bytes_witness :
    getFieldKindName ⟨⟨"blob", 9, .BytesKind, .repeated, 0⟩, "", ""⟩ =
      .ok "?ArrayList(ArrayList(u8))" :=
  (getFieldKindName_string_bytes ⟨⟨"blob", 9, .BytesKind, .repeated, 0⟩, "", ""⟩
    (by decide)).2 rfl

/-- C6: for a map field `getFieldKindName` fails with the error
`Maps are not supported`, whatever the kind of the field, also for the kinds
that the kind dispatch rejects; it returns no type. -/
theorem getFieldKindName_map (field : Field) (h : field.Desc.Cardinality = .map) :
    getFieldKindName field =
      .error ("Maps are not supported, field type: " ++ fmtNameMethod field.Desc.NameAddr) ∧
    (∀ T : String, getFieldKindName field ≠ .ok T) ∧
    getFieldKindName field ≠
      .error ("unmanaged field type in getFieldKindName " ++ field.Desc.Kind.name) := by
  have hm : field.Desc.IsMap = true := by simp [FieldDescriptor.IsMap, h]
  have hv : getFieldKindName field =
      .error ("Maps are not supported, field type: " ++ fmtNameMethod field.Desc.NameAddr) := by
    simp [getFieldKindName, hm]
  refine ⟨hv, ?_, ?_⟩
  · intro T hT
    rw [hv] at hT
    cases hT
  · rw [hv]
    intro he
    injection he with he
    have hd := congrArg String.data he
    simp only [String.data_append] at hd
    have h0 := congrArg List.head? hd
    simp at h0

/-- Witness of C6 at a map field of kind message and a map field of kind group. -/
theorem getFieldKindName_map_witness :
    getFieldKindName ⟨⟨"m", 6, .MessageKind, .map, 4779⟩, "MEntry", ""⟩ =
      .error "Maps are not supported, field type: %!s(func() protoreflect.Name=0x12ab)" ∧
    getFieldKindName ⟨⟨"g", 7, .GroupKind, .map, 4779⟩, "", ""⟩ ≠
      .error "unmanaged field type in getFieldKindName group" :=
  ⟨(getFieldKindName_map ⟨⟨"m", 6, .MessageKind, .map, 4779⟩, "MEntry", ""⟩ rfl).1,
   (getFieldKindName_map ⟨⟨"g", 7, .GroupKind, .map, 4779⟩, "", ""⟩ rfl).2.2⟩

/-! ## Theorems: generateFile -/

/-- C8: `generateFile` returns no error and leaves the plugin without a new
unit exactly when the file declares no message, however many enums it
declares; for a file with a message it creates exactly one unit, named by the
generated file name prefix followed by `.pb.zig`, or returns an error. The
last part says that the unit is registered in both cases. -/
theorem generateFile_skip_iff (p : Plugin) (f : File) :
    (((generateFile p f).2 = none ∧ (generateFile p f).1 = p) ↔ f.Messages = []) ∧
    (f.Messages ≠ [] →
      (∃ g, (generateFile p f).1.genFiles = p.genFiles ++ [g] ∧
          g.filename = f.GeneratedFilenamePrefix ++ ".pb.zig") ∨
        (generateFile p f).2 ≠ none) ∧
    (f.Messages ≠ [] →
      ∃ g, (generateFile p f).1.genFiles = p.genFiles ++ [g] ∧
        g.filename = f.GeneratedFilenamePrefix ++ ".pb.zig") := by
  have hunit : f.Messages ≠ [] →
      ∃ g, (generateFile p f).1.genFiles = p.genFiles ++ [g] ∧
        g.filename = f.GeneratedFilenamePrefix ++ ".pb.zig" := by
    intro hne
    rw [generateFile_plugin p f hne]
    exact ⟨_, rfl, by simp [NewGeneratedFile]⟩
  refine ⟨⟨?_, ?_⟩, fun hne => Or.inl (hunit hne), hunit⟩
  · rintro ⟨_, hp⟩
    by_contra hne
    obtain ⟨g, hg, _⟩ := hunit hne
    rw [hp] at hg
    have hlen := congrArg List.length hg
    simp at hlen
  · intro hnil
    simp [generateFile, hnil]

/-- Witness of C8 at a file with one enum and one message without fields. -/
theorem generateFile_skip_iff_witness :
    (generateFile ⟨[]⟩ ⟨"order", [⟨"Status", [⟨"PENDING", 0⟩]⟩], [⟨"Order", []⟩]⟩).2 = none ∧
    ∃ g, (generateFile ⟨[]⟩ ⟨"order", [⟨"Status", [⟨"PENDING", 0⟩]⟩], [⟨"Order", []⟩]⟩).1.genFiles =
        [] ++ [g] ∧
      g.filename = "order" ++ ".pb.zig" :=
  ⟨by decide,
   (generateFile_skip_iff ⟨[]⟩ ⟨"order", [⟨"Status", [⟨"PENDING", 0⟩]⟩], [⟨"Order", []⟩]⟩).2.2
      (by decide)⟩

/-- C9: if a field of a message of the file is rejected by `getFieldKindName`
or by `getFieldDescriptor`, then `generateFile` returns an error, whatever the
other fields, messages and enums of the file are. -/
theorem generateFile_fails_of_rejected_field (p : Plugin) (f : File) (m : Message)
    (field : Field) (hm : m ∈ f.Messages) (hf : field ∈ m.Fields)
    (hrej : (getFieldKindName field).isOk = false ∨ (getFieldDescriptor field).isOk = false) :
    ∃ e, (generateFile p f).2 = some e := by
  cases hres : (generateFile p f).2 with
  | some e => exact ⟨e, rfl⟩
  | none =>
    exfalso
    rw [generateFile_err, messagesLoop_none_iff] at hres
    have hok := hres m hm field hf
    rcases hrej with h | h
    · rw [hok.1] at h
      cases h
    · rw [hok.2] at h
      cases h

/-- Witness of C9 at a file whose second message has a repeated sint32 field
after a valid field: the type mapper accepts it, the wire mapper rejects it. -/
theorem generateFile_fails_of_rejected_field_witness :
    ∃ e, (generateFile ⟨[]⟩ ⟨"a", [], [⟨"M", [⟨⟨"x", 1, .BoolKind, .singular, 0⟩, "", ""⟩]⟩,
      ⟨"N", [⟨⟨"y", 1, .StringKind, .singular, 0⟩, "", ""⟩,
        ⟨⟨"zs", 2, .Sint32Kind, .repeated, 0⟩, "", ""⟩]⟩]⟩).2 = some e :=
  generateFile_fails_of_rejected_field ⟨[]⟩ _
    ⟨"N", [⟨⟨"y", 1, .StringKind, .singular, 0⟩, "", ""⟩,
      ⟨⟨"zs", 2, .Sint32Kind, .repeated, 0⟩, "", ""⟩]⟩
    ⟨⟨"zs", 2, .Sint32Kind, .repeated, 0⟩, "", ""⟩ (by decide) (by decide) (Or.inr (by decide))

/-- C10, as stated, fails: two files that differ only in the name of their
int32 field, `alpha` in one and `beta` in the other, fail with the same error,
and the name `alpha` does not occur in that error text. -/
theorem generateFile_error_omits_field_name :
    (generateFile ⟨[]⟩ ⟨"a", [], [⟨"M", [⟨⟨"alpha", 1, .Int32Kind, .singular, 0⟩, "", ""⟩]⟩]⟩).2 =
      some "unmanaged field type in getFieldKindName int32" ∧
    (generateFile ⟨[]⟩ ⟨"a", [], [⟨"M", [⟨⟨"beta", 1, .Int32Kind, .singular, 0⟩, "", ""⟩]⟩]⟩).2 =
      some "unmanaged field type in getFieldKindName int32" ∧
    ¬ ("alpha".data <:+: "unmanaged field type in getFieldKindName int32".data) := by
  decide

/-! ## The lines printed by each part of generateFile -/

@[simp]
theorem P_buf (g : GeneratedFile) (v : List String) :
    (g.P v).buf = g.buf ++ [String.join v] := rfl

theorem GeneratedFile.eq_of (g : GeneratedFile) (name : String) (lines : List String)
    (h1 : g.filename = name) (h2 : g.buf = lines) : g = ⟨name, lines⟩ := by
  cases g
  simp only at h1 h2
  rw [h1, h2]

theorem join_nil : String.join [] = "" := rfl

theorem join_one (a : String) : String.join [a] = a := by
  simp [String.join]

theorem join_three (a b c : String) : String.join [a, b, c] = a ++ b ++ c := by
  simp [String.join]

theorem join_five (a b c d e : String) : String.join [a, b, c, d, e] = a ++ b ++ c ++ d ++ e := by
  simp [String.join]

theorem emitHeader_buf (g : GeneratedFile) : (emitHeader g).buf = g.buf ++ headerLines := by
  simp [emitHeader, headerLines, join_nil, join_one]

theorem enumValuesLoop_buf (vs : List EnumValue) (g : GeneratedFile) :
    (enumValuesLoop vs g).buf = g.buf ++ vs.map enumValueLine := by
  induction vs generalizing g with
  | nil => simp [enumValuesLoop]
  | cons v rest ih => simp [enumValuesLoop, ih, enumValueLine, join_five]

theorem emitEnum_buf (m : Enum) (g : GeneratedFile) :
    (emitEnum m g).buf = g.buf ++ enumBlock m := by
  simp [emitEnum, enumBlock, enumValuesLoop_buf, join_one, join_three]

theorem enumsLoop_buf (es : List Enum) (g : GeneratedFile) :
    (enumsLoop es g).buf = g.buf ++ es.flatMap enumBlock := by
  induction es generalizing g with
  | nil => simp [enumsLoop]
  | cons m rest ih => simp [enumsLoop, ih, emitEnum_buf]

theorem emitMessageTail_buf (msgName : String) (g : GeneratedFile) :
    (emitMessageTail msgName g).buf = g.buf ++ messageTailLines msgName := by
  simp [emitMessageTail, messageTailLines, join_nil, join_one, join_three]

theorem fieldDefLoop_buf (fields : List Field) (g : GeneratedFile)
    (h : (fieldDefLoop fields g).2 = none) :
    (fieldDefLoop fields g).1.buf = g.buf ++ fields.map fieldDefLine := by
  induction fields generalizing g with
  | nil => simp [fieldDefLoop]
  | cons field rest ih =>
    unfold fieldDefLoop generateFieldDef at h ⊢
    cases hk : getFieldKindName field with
    | error e => rw [hk] at h; simp at h
    | ok r =>
      rw [hk] at h
      simp only at h ⊢
      rw [ih _ h]
      simp [fieldDefLine, resultText, hk, join_five]

theorem fieldDescriptorLoop_buf (fields : List Field) (g : GeneratedFile)
    (h : (fieldDescriptorLoop fields g).2 = none) :
    (fieldDescriptorLoop fields g).1.buf = g.buf ++ fields.map fieldTableLine := by
  induction fields generalizing g with
  | nil => simp [fieldDescriptorLoop]
  | cons field rest ih =>
    unfold fieldDescriptorLoop generateFieldDescriptor at h ⊢
    cases hk : getFieldDescriptor field with
    | error e => rw [hk] at h; simp at h
    | ok r =>
      rw [hk] at h
      simp only at h ⊢
      rw [ih _ h]
      simp [fieldTableLine, resultText, hk, join_five]

theorem emitMessage_buf (m : Message) (g : GeneratedFile) (h : (emitMessage m g).2 = none) :
    (emitMessage m g).1.buf = g.buf ++ messageBlock m := by
  unfold emitMessage at h ⊢
  simp only at h ⊢
  have h1 := fieldDefLoop_buf m.Fields (g.P ["pub const ", m.Name, " = struct \x7b"])
  rcases hdef : fieldDefLoop m.Fields (g.P ["pub const ", m.Name, " = struct \x7b"])
    with ⟨g1, _ | err⟩
  · rw [hdef] at h h1
    simp only at h h1 ⊢
    have h2 := fieldDescriptorLoop_buf m.Fields
      ((g1.P []).P ["    pub const _desc_table = .\x7b"])
    rcases hdesc : fieldDescriptorLoop m.Fields
      ((g1.P []).P ["    pub const _desc_table = .\x7b"]) with ⟨g2, _ | err⟩
    · rw [hdesc] at h2
      simp only at h2 ⊢
      rw [emitMessageTail_buf, h2 trivial, P_buf, P_buf, h1 trivial, P_buf]
      simp [messageBlock, join_nil, join_one, join_three]
    · rw [hdesc] at h
      simp at h
  · rw [hdef] at h
    simp at h

theorem messagesLoop_buf (ms : List Message) (g : GeneratedFile)
    (h : (messagesLoop ms g).2 = none) :
    (messagesLoop ms g).1.buf = g.buf ++ ms.flatMap messageBlock := by
  induction ms generalizing g with
  | nil => simp [messagesLoop]
  | cons m rest ih =>
    have h1 := emitMessage_buf m g
    unfold messagesLoop at h ⊢
    rcases hm : emitMessage m g with ⟨g1, _ | err⟩
    · rw [hm] at h h1
      simp only at h h1 ⊢
      rw [ih _ h, h1 trivial]
      simp
    · rw [hm] at h
      simp at h

/-! ## Every part of generateFile only adds lines -/

theorem fieldDefLoop_buf_prefix (fields : List Field) (g : GeneratedFile) :
    g.buf <+: (fieldDefLoop fields g).1.buf := by
  induction fields generalizing g with
  | nil => exact List.prefix_refl _
  | cons field rest ih =>
    unfold fieldDefLoop generateFieldDef
    cases hk : getFieldKindName field with
    | error e => exact List.prefix_refl _
    | ok r =>
      have h0 : g.buf <+: (g.P ["    ", field.Desc.Name, ": ", r, ","]).buf :=
        List.prefix_append _ _
      exact h0.trans (ih _)

theorem fieldDescriptorLoop_buf_prefix (fields : List Field) (g : GeneratedFile) :
    g.buf <+: (fieldDescriptorLoop fields g).1.buf := by
  induction fields generalizing g with
  | nil => exact List.prefix_refl _
  | cons field rest ih =>
    unfold fieldDescriptorLoop generateFieldDescriptor
    cases hk : getFieldDescriptor field with
    | error e => exact List.prefix_refl _
    | ok r =>
      have h0 : g.buf <+: (g.P ["        .", field.Desc.Name, " = ", r, ","]).buf :=
        List.prefix_append _ _
      exact h0.trans (ih _)

theorem emitMessage_buf_prefix (m : Message) (g : GeneratedFile) :
    g.buf <+: (emitMessage m g).1.buf := by
  unfold emitMessage
  simp only
  have h1 := fieldDefLoop_buf_prefix m.Fields (g.P ["pub const ", m.Name, " = struct \x7b"])
  have h0 : g.buf <+: (g.P ["pub const ", m.Name, " = struct \x7b"]).buf :=
    List.prefix_append _ _
  rcases hdef : fieldDefLoop m.Fields (g.P ["pub const ", m.Name, " = struct \x7b"])
    with ⟨g1, _ | err⟩
  · rw [hdef] at h1
    simp only at h1 ⊢
    have h2 := fieldDescriptorLoop_buf_prefix m.Fields
      ((g1.P []).P ["    pub const _desc_table = .\x7b"])
    have h3 : g1.buf <+: ((g1.P []).P ["    pub const _desc_table = .\x7b"]).buf :=
      (List.prefix_append _ _).trans (List.prefix_append _ _)
    rcases hdesc : fieldDescriptorLoop m.Fields
      ((g1.P []).P ["    pub const _desc_table = .\x7b"]) with ⟨g2, _ | err⟩
    · rw [hdesc] at h2
      simp only at h2 ⊢
      rw [emitMessageTail_buf]
      exact ((h0.trans h1).trans (h3.trans h2)).trans (List.prefix_append _ _)
    · rw [hdesc] at h2
      exact (h0.trans h1).trans (h3.trans h2)
  · rw [hdef] at h1
    exact h0.trans h1

theorem messagesLoop_buf_prefix (ms : List Message) (g : GeneratedFile) :
    g.buf <+: (messagesLoop ms g).1.buf := by
  induction ms generalizing g with
  | nil => exact List.prefix_refl _
  | cons m rest ih =>
    have h1 := emitMessage_buf_prefix m g
    unfold messagesLoop
    rcases hm : emitMessage m g with ⟨g1, _ | err⟩
    · rw [hm] at h1
      exact h1.trans (ih _)
    · rw [hm] at h1
      exact h1

/-! ## The error of generateFile is the first error of the mapper calls -/

theorem firstError_append (a b : List (Except String String)) :
    firstError (a ++ b) =
      match firstError a with
      | some e => some e
      | none => firstError b := by
  induction a with
  | nil => cases h : firstError b <;> simp [firstError, h]
  | cons r rest ih =>
    cases r with
    | error e => simp [firstError]
    | ok v => simpa [firstError] using ih

theorem fieldDefLoop_firstError (fields : List Field) (g : GeneratedFile) :
    (fieldDefLoop fields g).2 = firstError (fields.map getFieldKindName) := by
  induction fields generalizing g with
  | nil => rfl
  | cons field rest ih =>
    unfold fieldDefLoop generateFieldDef
    cases hk : getFieldKindName field with
    | error e => simp [firstError, hk]
    | ok r => simp [firstError, hk, ih]

theorem fieldDescriptorLoop_firstError (fields : List Field) (g : GeneratedFile) :
    (fieldDescriptorLoop fields g).2 = firstError (fields.map getFieldDescriptor) := by
  induction fields generalizing g with
  | nil => rfl
  | cons field rest ih =>
    unfold fieldDescriptorLoop generateFieldDescriptor
    cases hk : getFieldDescriptor field with
    | error e => simp [firstError, hk]
    | ok r => simp [firstError, hk, ih]

theorem emitMessage_firstError (m : Message) (g : GeneratedFile) :
    (emitMessage m g).2 =
      firstError (m.Fields.map getFieldKindName ++ m.Fields.map getFieldDescriptor) := by
  rw [firstError_append]
  unfold emitMessage
  simp only
  have h1 := fieldDefLoop_firstError m.Fields (g.P ["pub const ", m.Name, " = struct \x7b"])
  rcases hdef : fieldDefLoop m.Fields (g.P ["pub const ", m.Name, " = struct \x7b"])
    with ⟨g1, _ | err⟩
  · rw [hdef] at h1
    simp only at h1 ⊢
    rw [← h1]
    simp only
    have h2 := fieldDescriptorLoop_firstError m.Fields
      ((g1.P []).P ["    pub const _desc_table = .\x7b"])
    rcases hdesc : fieldDescriptorLoop m.Fields
      ((g1.P []).P ["    pub const _desc_table = .\x7b"]) with ⟨g2, _ | err⟩
    · rw [hdesc] at h2
      simp only at h2 ⊢
      exact h2
    · rw [hdesc] at h2
      simp only at h2 ⊢
      exact h2
  · rw [hdef] at h1
    simp only at h1 ⊢
    rw [← h1]

theorem messagesLoop_firstError (ms : List Message) (g : GeneratedFile) :
    (messagesLoop ms g).2 =
      firstError (ms.flatMap fun m =>
        m.Fields.map getFieldKindName ++ m.Fields.map getFieldDescriptor) := by
  induction ms generalizing g with
  | nil => rfl
  | cons m rest ih =>
    have h1 := emitMessage_firstError m g
    rw [List.flatMap_cons, firstError_append, ← h1]
    unfold messagesLoop
    rcases hm : emitMessage m g with ⟨g1, _ | err⟩
    · simp only
      exact ih g1
    · rfl

/-- The plugin after a successful `generateFile` on a file with a message. -/
theorem generateFile_success_unit (p : Plugin) (f : File) (hne : f.Messages ≠ [])
    (hok : (generateFile p f).2 = none) :
    (generateFile p f).1.genFiles = p.genFiles ++
      [⟨f.GeneratedFilenamePrefix ++ ".pb.zig",
        headerLines ++ f.Enums.flatMap enumBlock ++ f.Messages.flatMap messageBlock⟩] := by
  rw [generateFile_err] at hok
  rw [generateFile_plugin p f hne]
  simp only [Plugin.register]
  congr 2
  apply GeneratedFile.eq_of
  · simp [NewGeneratedFile]
  · rw [messagesLoop_buf _ _ hok, enumsLoop_buf, emitHeader_buf]
    simp [NewGeneratedFile]

/-- The unit registered by `generateFile` on a file with a message starts with
the header and the enum blocks, also when an error is returned. -/
theorem generateFile_unit_prefix (p : Plugin) (f : File) (hne : f.Messages ≠ []) :
    ∃ g, (generateFile p f).1.genFiles = p.genFiles ++ [g] ∧
      headerLines ++ f.Enums.flatMap enumBlock <+: g.buf := by
  rw [generateFile_plugin p f hne]
  refine ⟨_, rfl, ?_⟩
  have h := messagesLoop_buf_prefix f.Messages
    (enumsLoop f.Enums (emitHeader (NewGeneratedFile (f.GeneratedFilenamePrefix ++ ".pb.zig"))))
  rw [enumsLoop_buf, emitHeader_buf] at h
  simpa [NewGeneratedFile] using h

/-! ## Theorems: the emitted unit -/

/-- C11: for a file with at least one message on which `generateFile`
succeeds, the unit registered is the fixed header, the same for every file,
followed by the block of every declared enum in declaration order, followed by
the block of every declared message in declaration order. -/
theorem generateFile_unit_layout (p : Plugin) (f : File) (hne : f.Messages ≠ [])
    (hok : (generateFile p f).2 = none) :
    ∃ g, (generateFile p f).1.genFiles = p.genFiles ++ [g] ∧
      g.filename = f.GeneratedFilenamePrefix ++ ".pb.zig" ∧
      g.buf = headerLines ++ (f.Enums.map enumBlock).flatten ++
        (f.Messages.map messageBlock).flatten ∧
      (f.Enums.map enumBlock).length = f.Enums.length ∧
      (f.Messages.map messageBlock).length = f.Messages.length := by
  refine ⟨_, generateFile_success_unit p f hne hok, rfl, ?_, by simp, by simp⟩
  simp [List.flatMap]

/-- Witness of C11 at a file with one enum and one message of one field. -/
theorem generateFile_unit_layout_witness :
    ∃ g, (generateFile ⟨[]⟩ ⟨"order", [⟨"Status", [⟨"PENDING", 0⟩]⟩],
        [⟨"Order", [⟨⟨"id", 1, .Sint64Kind, .singular, 0⟩, "", ""⟩]⟩]⟩).1.genFiles = [] ++ [g] ∧
      g.filename = "order" ++ ".pb.zig" ∧
      g.buf = headerLines ++ ([(⟨"Status", [⟨"PENDING", 0⟩]⟩ : Enum)].map enumBlock).flatten ++
        ([(⟨"Order", [⟨⟨"id", 1, .Sint64Kind, .singular, 0⟩, "", ""⟩]⟩ : Message)].map
          messageBlock).flatten ∧
      ([(⟨"Status", [⟨"PENDING", 0⟩]⟩ : Enum)].map enumBlock).length = 1 ∧
      ([(⟨"Order", [⟨⟨"id", 1, .Sint64Kind, .singular, 0⟩, "", ""⟩]⟩ : Message)].map
        messageBlock).length = 1 :=
  generateFile_unit_layout ⟨[]⟩ ⟨"order", [⟨"Status", [⟨"PENDING", 0⟩]⟩],
    [⟨"Order", [⟨⟨"id", 1, .Sint64Kind, .singular, 0⟩, "", ""⟩]⟩]⟩ (by decide) (by decide)

/-- C12: for a message emitted without error, the block has one definition
line per declared field and one table line per declared field, both in
declaration order; the definition line of a field is four spaces, its name,
`: `, the type of `getFieldKindName` and a comma, and its table line is eight
spaces, a dot, its name, ` = `, the descriptor of `getFieldDescriptor` and a
comma, so the names of the definition lines are the keys of the table lines,
in the same order. -/
theorem emitMessage_field_lines (m : Message) (g : GeneratedFile)
    (hok : (emitMessage m g).2 = none) :
    (∃ defs table : List String,
      (emitMessage m g).1.buf = g.buf ++ (["pub const " ++ m.Name ++ " = struct \x7b"] ++ defs ++
        ["", "    pub const _desc_table = .\x7b"] ++ table ++ messageTailLines m.Name) ∧
      defs.length = m.Fields.length ∧ table.length = m.Fields.length ∧
      ∀ (i : Nat) (hi : i < m.Fields.length),
        ∃ T D, getFieldKindName m.Fields[i] = .ok T ∧
          getFieldDescriptor m.Fields[i] = .ok D ∧
          defs[i]? = some ("    " ++ m.Fields[i].Desc.Name ++ ": " ++ T ++ ",") ∧
          table[i]? =
            some ("        ." ++ m.Fields[i].Desc.Name ++ " = " ++ D ++ ",")) := by
  refine ⟨m.Fields.map fieldDefLine, m.Fields.map fieldTableLine, ?_, by simp, by simp, ?_⟩
  · rw [emitMessage_buf m g hok]
    rfl
  · intro i hi
    have hall := (emitMessage_none_iff m g).1 hok m.Fields[i] (List.getElem_mem _)
    cases hT : getFieldKindName m.Fields[i] with
    | error e => rw [hT] at hall; simp [Except.isOk, Except.toBool] at hall
    | ok T =>
      cases hD : getFieldDescriptor m.Fields[i] with
      | error e => rw [hD] at hall; simp [Except.isOk, Except.toBool] at hall
      | ok D =>
        refine ⟨T, D, rfl, rfl, ?_, ?_⟩
        · rw [List.getElem?_map, List.getElem?_eq_getElem hi]
          simp only [Option.map_some', fieldDefLine]
          rw [hT]
          rfl
        · rw [List.getElem?_map, List.getElem?_eq_getElem hi]
          simp only [Option.map_some', fieldTableLine]
          rw [hD]
          rfl

/-- Witness of C12 at a message with a bool field and a repeated enum field. -/
theorem emitMessage_field_lines_witness :
    ∃ defs table : List String,
      (emitMessage ⟨"M", [⟨⟨"on", 1, .BoolKind, .singular, 0⟩, "", ""⟩,
          ⟨⟨"all", 2, .EnumKind, .repeated, 0⟩, "", "Status"⟩]⟩ ⟨"m.pb.zig", []⟩).1.buf =
        [] ++ (["pub const " ++ "M" ++ " = struct \x7b"] ++ defs ++
          ["", "    pub const _desc_table = .\x7b"] ++ table ++ messageTailLines "M") ∧
      defs.length = 2 ∧ table.length = 2 :=
  let ⟨defs, table, h1, h2, h3, _⟩ := emitMessage_field_lines
    ⟨"M", [⟨⟨"on", 1, .BoolKind, .singular, 0⟩, "", ""⟩,
      ⟨⟨"all", 2, .EnumKind, .repeated, 0⟩, "", "Status"⟩]⟩ ⟨"m.pb.zig", []⟩ (by decide)
  ⟨defs, table, h1, h2, h3⟩

/-- C13: the block of an enum is the line `pub const <name> = enum(i32) {`,
then one line `    <value-name> = <integer>,` per declared value, in
declaration order, with the declared name and integer, then the one catch-all
line `    _,`, then the closing line `};` and an empty line; every file with a
message carries, after the header, the blocks of its enums in declaration
order, also when a later field is rejected. -/
theorem emitEnum_block :
    (∀ (m : Enum) (g : GeneratedFile),
      (emitEnum m g).buf = g.buf ++ enumBlock m ∧
      enumBlock m = ["pub const " ++ m.Name ++ " = enum(i32) \x7b"] ++
        m.Values.map (fun v => "    " ++ v.Name ++ " = " ++ toString v.Number ++ ",") ++
        ["    _,", "\x7d;", ""]) ∧
    (∀ (p : Plugin) (f : File), f.Messages ≠ [] →
      ∃ g, (generateFile p f).1.genFiles = p.genFiles ++ [g] ∧
        headerLines ++ (f.Enums.map enumBlock).flatten <+: g.buf) := by
  refine ⟨fun m g => ⟨emitEnum_buf m g, rfl⟩, fun p f hne => ?_⟩
  obtain ⟨g, hg, hpre⟩ := generateFile_unit_prefix p f hne
  exact ⟨g, hg, by simpa [List.flatMap] using hpre⟩

/-- Witness of C13 at an enum with a negative number, a gap and a repeated
number. -/
theorem emitEnum_block_witness :
    (emitEnum ⟨"E", [⟨"A", -1⟩, ⟨"B", 7⟩, ⟨"C", 7⟩]⟩ ⟨"e.pb.zig", []⟩).buf =
      ["pub const E = enum(i32) \x7b", "    A = -1,", "    B = 7,", "    C = 7,", "    _,",
        "\x7d;", ""] ∧
    ∃ g, (generateFile ⟨[]⟩ ⟨"e", [⟨"E", [⟨"A", -1⟩, ⟨"B", 7⟩, ⟨"C", 7⟩]⟩],
        [⟨"M", []⟩]⟩).1.genFiles = [] ++ [g] ∧
      headerLines ++ ([(⟨"E", [⟨"A", -1⟩, ⟨"B", 7⟩, ⟨"C", 7⟩]⟩ : Enum)].map enumBlock).flatten
        <+: g.buf :=
  ⟨by decide,
   emitEnum_block.2 ⟨[]⟩ ⟨"e", [⟨"E", [⟨"A", -1⟩, ⟨"B", 7⟩, ⟨"C", 7⟩]⟩], [⟨"M", []⟩]⟩
     (by decide)⟩

/-- C14: a message without fields never fails: its block is the opening line,
an empty line, the empty table `_desc_table = .{` `};` and the four operations
encode, decode, init and deinit, which delegate to pb_encode, pb_decode,
pb_init and pb_deinit under the name of the message. The loop body prints
exactly that block; a file all of whose messages have no field is emitted
without error, as the unit made of the header, the enum blocks and these
blocks; in every file emitted without error the unit holds the block of each
message; and taking a message without fields out of a file does not change the
error that `generateFile` returns. -/
theorem emitMessage_no_fields :
    (∀ m : Message, m.Fields = [] →
      messageBlock m =
        ["pub const " ++ m.Name ++ " = struct \x7b",
         "",
         "    pub const _desc_table = .\x7b",
         "    \x7d;",
         "",
         "    pub fn encode(self: " ++ m.Name ++ ", allocator: Allocator) ![]u8 \x7b",
         "        return pb_encode(self, allocator);",
         "    \x7d",
         "",
         "    pub fn decode(input: []const u8, allocator: Allocator) !" ++ m.Name ++ " \x7b",
         "        return pb_decode(" ++ m.Name ++ ", input, allocator);",
         "    \x7d",
         "",
         "    pub fn init(allocator: Allocator) " ++ m.Name ++ " \x7b",
         "        return pb_init(" ++ m.Name ++ ", allocator);",
         "    \x7d",
         "",
         "    pub fn deinit(self: " ++ m.Name ++ ") void \x7b",
         "        return pb_deinit(self);",
         "    \x7d",
         "\x7d;",
         ""]) ∧
    (∀ (m : Message) (g : GeneratedFile), m.Fields = [] →
      emitMessage m g = (⟨g.filename, g.buf ++ messageBlock m⟩, none)) ∧
    (∀ (p : Plugin) (f : File), (∀ m ∈ f.Messages, m.Fields = []) →
      (generateFile p f).2 = none ∧
      (f.Messages ≠ [] →
        (generateFile p f).1.genFiles = p.genFiles ++
          [⟨f.GeneratedFilenamePrefix ++ ".pb.zig",
            headerLines ++ (f.Enums.map enumBlock).flatten ++
              (f.Messages.map messageBlock).flatten⟩])) ∧
    (∀ (p : Plugin) (f : File), f.Messages ≠ [] → (generateFile p f).2 = none →
      (generateFile p f).1.genFiles = p.genFiles ++
        [⟨f.GeneratedFilenamePrefix ++ ".pb.zig",
          headerLines ++ (f.Enums.map enumBlock).flatten ++
            (f.Messages.map messageBlock).flatten⟩]) ∧
    (∀ (p q : Plugin) (name : String) (enums : List Enum) (before after : List Message)
      (m : Message), m.Fields = [] →
      (generateFile p ⟨name, enums, before ++ m :: after⟩).2 =
        (generateFile q ⟨name, enums, before ++ after⟩).2) := by
  have hunit : ∀ (p : Plugin) (f : File), f.Messages ≠ [] → (generateFile p f).2 = none →
      (generateFile p f).1.genFiles = p.genFiles ++
        [⟨f.GeneratedFilenamePrefix ++ ".pb.zig",
          headerLines ++ (f.Enums.map enumBlock).flatten ++
            (f.Messages.map messageBlock).flatten⟩] := by
    intro p f hne hok
    rw [generateFile_success_unit p f hne hok]
    simp [List.flatMap]
  have hnone : ∀ (p : Plugin) (f : File), (∀ m ∈ f.Messages, m.Fields = []) →
      (generateFile p f).2 = none := by
    intro p f hall
    rw [generateFile_err, messagesLoop_none_iff]
    intro m hm field hf
    rw [hall m hm] at hf
    cases hf
  refine ⟨?_, ?_, fun p f hall => ⟨hnone p f hall, fun hne => hunit p f hne (hnone p f hall)⟩,
    hunit, ?_⟩
  · rintro ⟨name, fields⟩ hf
    simp only at hf
    subst hf
    rfl
  · rintro ⟨name, fields⟩ g hf
    simp only at hf
    subst hf
    have hok : (emitMessage ⟨name, []⟩ g).2 = none := by
      rw [emitMessage_none_iff]
      intro field hfield
      cases hfield
    have hbuf := emitMessage_buf _ _ hok
    have hname := emitMessage_filename ⟨name, []⟩ g
    rcases hres : emitMessage ⟨name, []⟩ g with ⟨g1, err⟩
    rw [hres] at hok hbuf hname
    simp only at hok hbuf hname
    rw [hok, GeneratedFile.eq_of g1 _ _ hname hbuf]
  · intro p q name enums before after m hf
    rw [generateFile_err, generateFile_err, messagesLoop_firstError, messagesLoop_firstError]
    simp [hf]

/-- Witness of C14 at a file with one enum and two messages without fields. -/
theorem emitMessage_no_fields_witness :
    (generateFile ⟨[]⟩ ⟨"empty", [⟨"E", [⟨"A", 0⟩]⟩], [⟨"A", []⟩, ⟨"B", []⟩]⟩).2 = none ∧
    (generateFile ⟨[]⟩ ⟨"empty", [⟨"E", [⟨"A", 0⟩]⟩], [⟨"A", []⟩, ⟨"B", []⟩]⟩).1.genFiles =
      [] ++ [⟨"empty" ++ ".pb.zig",
        headerLines ++ ([(⟨"E", [⟨"A", 0⟩]⟩ : Enum)].map enumBlock).flatten ++
          ([(⟨"A", []⟩ : Message), ⟨"B", []⟩].map messageBlock).flatten⟩] :=
  ⟨(emitMessage_no_fields.2.2.1 ⟨[]⟩ ⟨"empty", [⟨"E", [⟨"A", 0⟩]⟩], [⟨"A", []⟩, ⟨"B", []⟩]⟩
      (by decide)).1,
   (emitMessage_no_fields.2.2.1 ⟨[]⟩ ⟨"empty", [⟨"E", [⟨"A", 0⟩]⟩], [⟨"A", []⟩, ⟨"B", []⟩]⟩
      (by decide)).2 (by decide)⟩

/-- C15, as stated, fails: on the file that declares the enum Status and
the message Order with `int64 id = 1`, `generateFile` returns an error, since
int64 is a kind of the default branch of `getFieldKindName`. -/
theorem generateFile_order_int64_fails :
    (generateFile ⟨[]⟩ ⟨"order", [⟨"Status", [⟨"PENDING", 0⟩, ⟨"SHIPPED", 1⟩]⟩],
      [⟨"Order", [⟨⟨"id", 1, .Int64Kind, .singular, 0⟩, "", ""⟩,
        ⟨⟨"tags", 2, .StringKind, .repeated, 0⟩, "", ""⟩,
        ⟨⟨"status", 3, .EnumKind, .singular, 0⟩, "", "Status"⟩]⟩]⟩).2 =
      some "unmanaged field type in getFieldKindName int64" := by
  decide

/-- C15, amended: on the file as declared, with `int64 id = 1`,
`generateFile` returns the error of the type mapper for int64; on the same
file with `sint64 id = 1` it succeeds and registers one unit, `order.pb.zig`,
made of the header, the block of Status and the block of Order, whose
definition lines give `?i64` to id, `?ArrayList(ArrayList(u8))` to tags and
`?Status` to status, whose table lines give the zigzag varint to id (1), the
list of fixed integers to tags (2) and the zigzag varint to status (3), and
whose four operations refer to Order. -/
theorem generateFile_order_example :
    (generateFile ⟨[]⟩ ⟨"order", [⟨"Status", [⟨"PENDING", 0⟩, ⟨"SHIPPED", 1⟩]⟩],
      [⟨"Order", [⟨⟨"id", 1, .Int64Kind, .singular, 0⟩, "", ""⟩,
        ⟨⟨"tags", 2, .StringKind, .repeated, 0⟩, "", ""⟩,
        ⟨⟨"status", 3, .EnumKind, .singular, 0⟩, "", "Status"⟩]⟩]⟩).2 =
      some "unmanaged field type in getFieldKindName int64" ∧
    generateFile ⟨[]⟩ ⟨"order", [⟨"Status", [⟨"PENDING", 0⟩, ⟨"SHIPPED", 1⟩]⟩],
      [⟨"Order", [⟨⟨"id", 1, .Sint64Kind, .singular, 0⟩, "", ""⟩,
        ⟨⟨"tags", 2, .StringKind, .repeated, 0⟩, "", ""⟩,
        ⟨⟨"status", 3, .EnumKind, .singular, 0⟩, "", "Status"⟩]⟩]⟩ =
      (⟨[⟨"order.pb.zig", headerLines ++
        ["pub const Status = enum(i32) \x7b",
         "    PENDING = 0,",
         "    SHIPPED = 1,",
         "    _,",
         "\x7d;",
         "",
         "pub const Order = struct \x7b",
         "    id: ?i64,",
         "    tags: ?ArrayList(ArrayList(u8)),",
         "    status: ?Status,",
         "",
         "    pub const _desc_table = .\x7b",
         "        .id = fd(1, .\x7b .Varint = .ZigZagOptimized \x7d),",
         "        .tags = fd(2, .\x7b .List = .FixedInt \x7d),",
         "        .status = fd(3, .\x7b .Varint = .ZigZagOptimized \x7d),",
         "    \x7d;",
         "",
         "    pub fn encode(self: Order, allocator: Allocator) ![]u8 \x7b",
         "        return pb_encode(self, allocator);",
         "    \x7d",
         "",
         "    pub fn decode(input: []const u8, allocator: Allocator) !Order \x7b",
         "        return pb_decode(Order, input, allocator);",
         "    \x7d",
         "",
         "    pub fn init(allocator: Allocator) Order \x7b",
         "        return pb_init(Order, allocator);",
         "    \x7d",
         "",
         "    pub fn deinit(self: Order) void \x7b",
         "        return pb_deinit(self);",
         "    \x7d",
         "\x7d;",
         ""]⟩]⟩, none) := by
  constructor
  · decide
  · decide

/-! ## Theorems: errors -/

/-- Two strings that differ within their first `n` characters stay different
whatever is appended to them. -/
theorem append_ne_of_take_ne (a b x y : String) (n : Nat) (ha : n ≤ a.data.length)
    (hb : n ≤ b.data.length) (h : a.data.take n ≠ b.data.take n) : a ++ x ≠ b ++ y := by
  intro he
  have hd : (a ++ x).data.take n = (b ++ y).data.take n := by rw [he]
  rw [String.data_append, String.data_append, List.take_append_of_le_length ha,
    List.take_append_of_le_length hb] at hd
  exact h hd

/-- C16: the error text tells the two mappers apart: an error of
`getFieldKindName` on a field is never equal to an error of
`getFieldDescriptor` on a field, whatever the two fields are, and the error of
a map field is never equal to the unsupported-kind error of either mapper. -/
theorem mapper_errors_distinct :
    (∀ (f g : Field) (e1 e2 : String),
      getFieldKindName f = .error e1 → getFieldDescriptor g = .error e2 → e1 ≠ e2) ∧
    (∀ (f g : Field) (e1 e2 : String), f.Desc.Cardinality = .map →
      getFieldKindName f = .error e1 → g.Desc.Cardinality ≠ .map →
      getFieldKindName g = .error e2 → e1 ≠ e2) ∧
    (∀ (f g : Field) (e1 e2 : String), f.Desc.Cardinality = .map →
      getFieldKindName f = .error e1 → getFieldDescriptor g = .error e2 → e1 ≠ e2) := by
  have hmain : ∀ (f g : Field) (e1 e2 : String),
      getFieldKindName f = .error e1 → getFieldDescriptor g = .error e2 → e1 ≠ e2 := by
    intro f g e1 e2 h1 h2
    rw [getFieldDescriptor_error g e2 h2]
    rcases getFieldKindName_error f e1 h1 with ⟨_, he⟩ | ⟨_, _, he⟩
    · rw [he]
      exact append_ne_of_take_ne _ _ _ _ 1 (by decide) (by decide) (by decide)
    · rw [he]
      exact append_ne_of_take_ne _ _ _ _ 25 (by decide) (by decide) (by decide)
  refine ⟨hmain, ?_, fun f g e1 e2 _ h1 h2 => hmain f g e1 e2 h1 h2⟩
  intro f g e1 e2 hf h1 hg h2
  rcases getFieldKindName_error f e1 h1 with ⟨_, he1⟩ | ⟨hne, _, _⟩
  · rcases getFieldKindName_error g e2 h2 with ⟨hmap, _⟩ | ⟨_, _, he2⟩
    · exact absurd hmap hg
    · rw [he1, he2]
      exact append_ne_of_take_ne _ _ _ _ 1 (by decide) (by decide) (by decide)
  · exact absurd hf hne

/-- Witness of C16 at an int32 field, a map field and a repeated bool field. -/
theorem mapper_errors_distinct_witness :
    "unmanaged field type in getFieldKindName int32" ≠
      "unmanaged field type in  getFieldDescriptor bool" ∧
    "Maps are not supported, field type: %!s(func() protoreflect.Name=0x12ab)" ≠
      "unmanaged field type in getFieldKindName int32" ∧
    "Maps are not supported, field type: %!s(func() protoreflect.Name=0x12ab)" ≠
      "unmanaged field type in  getFieldDescriptor bool" :=
  ⟨mapper_errors_distinct.1 ⟨⟨"n", 1, .Int32Kind, .singular, 0⟩, "", ""⟩
      ⟨⟨"bs", 2, .BoolKind, .repeated, 0⟩, "", ""⟩ _ _ (by decide) (by decide),
   mapper_errors_distinct.2.1 ⟨⟨"m", 3, .MessageKind, .map, 4779⟩, "E", ""⟩
      ⟨⟨"n", 1, .Int32Kind, .singular, 0⟩, "", ""⟩ _ _ rfl (by decide) (by decide) (by decide),
   mapper_errors_distinct.2.2 ⟨⟨"m", 3, .MessageKind, .map, 4779⟩, "E", ""⟩
      ⟨⟨"bs", 2, .BoolKind, .repeated, 0⟩, "", ""⟩ _ _ rfl (by decide) (by decide)⟩

/-- C10, amended: when `generateFile` fails, the error returned is the
unchanged error of the first failing mapper call, so it is the error of a
mapper on a field of a message of the file; when that field is rejected for
its kind the text is `unmanaged field type in getFieldKindName` or
`unmanaged field type in  getFieldDescriptor` followed by the name of the
declared kind: it names the kind and the mapper, not the field. Renaming a
field changes the result of neither mapper, and two fields of the same kind
that a mapper rejects for the kind get the same error from it. -/
theorem generateFile_error_names_kind (p : Plugin) (f : File) (e : String)
    (h : (generateFile p f).2 = some e) :
    firstError (mapperCalls f) = some e ∧
    (∃ m ∈ f.Messages, ∃ field ∈ m.Fields,
      (getFieldKindName field = .error e ∧
        ((field.Desc.Cardinality = .map ∧
            e = "Maps are not supported, field type: " ++ fmtNameMethod field.Desc.NameAddr) ∨
          (field.Desc.Cardinality ≠ .map ∧
            field.Desc.Kind ∈ [Kind.Int32Kind, .Int64Kind, .GroupKind] ∧
            e = "unmanaged field type in getFieldKindName " ++ field.Desc.Kind.name))) ∨
      (getFieldDescriptor field = .error e ∧
        e = "unmanaged field type in  getFieldDescriptor " ++ field.Desc.Kind.name)) ∧
    (∀ (field : Field) (name : String),
      getFieldKindName (field.withName name) = getFieldKindName field ∧
      getFieldDescriptor (field.withName name) = getFieldDescriptor field) ∧
    (∀ (f1 f2 : Field) (e1 : String), f1.Desc.Kind = f2.Desc.Kind →
      f1.Desc.Cardinality ≠ .map → f2.Desc.Cardinality ≠ .map →
      getFieldKindName f1 = .error e1 → getFieldKindName f2 = .error e1) ∧
    (∀ (f1 f2 : Field) (e1 e2 : String), f1.Desc.Kind = f2.Desc.Kind →
      getFieldDescriptor f1 = .error e1 → getFieldDescriptor f2 = .error e2 → e1 = e2) := by
  refine ⟨?_, ?_, fun field name => ⟨rfl, rfl⟩, ?_, ?_⟩
  · rw [generateFile_err, messagesLoop_firstError] at h
    exact h
  · rw [generateFile_err] at h
    obtain ⟨m, hm, field, hf, hk | hd⟩ := messagesLoop_some _ _ _ h
    · refine ⟨m, hm, field, hf, Or.inl ⟨hk, ?_⟩⟩
      rcases getFieldKindName_error field e hk with ⟨hmap, he⟩ | ⟨hne, hkind, he⟩
      · exact Or.inl ⟨hmap, he⟩
      · exact Or.inr ⟨hne, hkind, he⟩
    · exact ⟨m, hm, field, hf, Or.inr ⟨hd, getFieldDescriptor_error field e hd⟩⟩
  · intro f1 f2 e1 hkind h1 h2 he
    rw [getFieldKindName_eq_elementType f1 h1] at he
    rw [getFieldKindName_eq_elementType f2 h2]
    have hel : elementType f1 = none → elementType f2 = none := by
      unfold elementType
      rw [hkind]
      cases f2.Desc.Kind <;> simp
    cases h1e : elementType f1 with
    | some T => rw [h1e] at he; cases he
    | none =>
      rw [h1e] at he
      rw [hel h1e, ← hkind]
      exact he
  · intro f1 f2 e1 e2 hkind h1 h2
    rw [getFieldDescriptor_error f1 e1 h1, getFieldDescriptor_error f2 e2 h2, hkind]

/-- Witness of the amended C10 at a file whose first field is accepted and
whose second field is an int32: the error is that of the type mapper on the
second field. -/
theorem generateFile_error_names_kind_witness :
    firstError (mapperCalls ⟨"a", [], [⟨"M", [⟨⟨"ok", 1, .BoolKind, .singular, 0⟩, "", ""⟩,
      ⟨⟨"bad", 2, .Int32Kind, .singular, 0⟩, "", ""⟩]⟩]⟩) =
      some "unmanaged field type in getFieldKindName int32" :=
  (generateFile_error_names_kind ⟨[]⟩
    ⟨"a", [], [⟨"M", [⟨⟨"ok", 1, .BoolKind, .singular, 0⟩, "", ""⟩,
      ⟨⟨"bad", 2, .Int32Kind, .singular, 0⟩, "", ""⟩]⟩]⟩
    "unmanaged field type in getFieldKindName int32" (by decide)).1

/-- C17: the error returned by `generateFile` is the error of the first
failing mapper call in emission order, unchanged, where the messages come in
declaration order and, within a message, `getFieldKindName` is applied to
every field before `getFieldDescriptor` is applied to any; so when the calls
of the first message hold an error, that error is returned whatever the later
messages are, and in a message whose first field fails only the wire mapping
and whose second field fails the type mapping, the error of the second field
is returned. -/
theorem generateFile_first_error :
    (∀ (p : Plugin) (f : File), (generateFile p f).2 = firstError (mapperCalls f)) ∧
    (∀ (p : Plugin) (name : String) (enums : List Enum) (m : Message) (rest : List Message)
      (e : String),
      firstError (m.Fields.map getFieldKindName ++ m.Fields.map getFieldDescriptor) = some e →
      (generateFile p ⟨name, enums, m :: rest⟩).2 = some e) ∧
    (getFieldKindName ⟨⟨"xs", 1, .Sint32Kind, .repeated, 0⟩, "", ""⟩ = .ok "?ArrayList(i32)" ∧
      getFieldDescriptor ⟨⟨"xs", 1, .Sint32Kind, .repeated, 0⟩, "", ""⟩ =
        .error "unmanaged field type in  getFieldDescriptor sint32" ∧
      getFieldKindName ⟨⟨"y", 2, .Int32Kind, .singular, 0⟩, "", ""⟩ =
        .error "unmanaged field type in getFieldKindName int32" ∧
      (generateFile ⟨[]⟩ ⟨"a", [], [⟨"M", [⟨⟨"xs", 1, .Sint32Kind, .repeated, 0⟩, "", ""⟩,
        ⟨⟨"y", 2, .Int32Kind, .singular, 0⟩, "", ""⟩]⟩]⟩).2 =
        some "unmanaged field type in getFieldKindName int32") := by
  have hmain : ∀ (p : Plugin) (f : File), (generateFile p f).2 = firstError (mapperCalls f) := by
    intro p f
    rw [generateFile_err, messagesLoop_firstError]
    rfl
  refine ⟨hmain, ?_, by decide⟩
  intro p name enums m rest e he
  rw [hmain]
  simp only [mapperCalls, List.flatMap_cons]
  rw [firstError_append, he]

/-- Witness of C17 at a file whose first message fails the wire mapping and
whose second message fails the type mapping. -/
theorem generateFile_first_error_witness :
    (generateFile ⟨[]⟩ ⟨"a", [], [⟨"M", [⟨⟨"xs", 1, .Sint32Kind, .repeated, 0⟩, "", ""⟩]⟩,
      ⟨"N", [⟨⟨"y", 2, .Int32Kind, .singular, 0⟩, "", ""⟩]⟩]⟩).2 =
      some "unmanaged field type in  getFieldDescriptor sint32" :=
  generateFile_first_error.2.1 ⟨[]⟩ "a" [] ⟨"M", [⟨⟨"xs", 1, .Sint32Kind, .repeated, 0⟩, "", ""⟩]⟩
    [⟨"N", [⟨⟨"y", 2, .Int32Kind, .singular, 0⟩, "", ""⟩]⟩]
    "unmanaged field type in  getFieldDescriptor sint32" (by decide)

/-- C18: for a field that is not a map, if `getFieldDescriptor` succeeds then
`getFieldKindName` succeeds, and not the other way round (a repeated sint32
field); for a map field `getFieldDescriptor` returns what it returns for the
singular field; hence on a file with a message `generateFile` succeeds exactly
when every field of every message is not a map and is accepted by
`getFieldDescriptor`. -/
theorem generateFile_succeeds_iff :
    (∀ field : Field, field.Desc.Cardinality ≠ .map →
      (getFieldDescriptor field).isOk = true → (getFieldKindName field).isOk = true) ∧
    ((getFieldKindName ⟨⟨"xs", 1, .Sint32Kind, .repeated, 0⟩, "", ""⟩).isOk = true ∧
      (getFieldDescriptor ⟨⟨"xs", 1, .Sint32Kind, .repeated, 0⟩, "", ""⟩).isOk = false) ∧
    (∀ field : Field, field.Desc.Cardinality = .map →
      getFieldDescriptor field = getFieldDescriptor (field.withCardinality .singular)) ∧
    (∀ (p : Plugin) (f : File), f.Messages ≠ [] →
      ((generateFile p f).2 = none ↔
        ∀ m ∈ f.Messages, ∀ field ∈ m.Fields,
          field.Desc.Cardinality ≠ .map ∧ (getFieldDescriptor field).isOk = true)) := by
  have hsub : ∀ field : Field, field.Desc.Cardinality ≠ .map →
      (getFieldDescriptor field).isOk = true → (getFieldKindName field).isOk = true := by
    rintro ⟨⟨name, num, kind, card, addr⟩, mn, en⟩ hmap hd
    cases card
    · cases kind <;> first
        | rfl
        | (exact absurd hd (by
            simp [getFieldDescriptor, FieldDescriptor.IsList, Except.isOk, Except.toBool]))
    · cases kind <;> first
        | rfl
        | (exact absurd hd (by
            simp [getFieldDescriptor, FieldDescriptor.IsList, Except.isOk, Except.toBool]))
    · exact absurd rfl hmap
  have hmapfail : ∀ field : Field, (getFieldKindName field).isOk = true →
      field.Desc.Cardinality ≠ .map := by
    rintro ⟨⟨name, num, kind, card, addr⟩, mn, en⟩ hk hc
    simp only at hc
    subst hc
    simp [getFieldKindName, FieldDescriptor.IsMap, Except.isOk, Except.toBool] at hk
  refine ⟨hsub, by decide, ?_, ?_⟩
  · rintro ⟨⟨name, num, kind, card, addr⟩, mn, en⟩ hc
    simp only at hc
    subst hc
    rfl
  · intro p f _
    rw [generateFile_err, messagesLoop_none_iff]
    constructor
    · intro h m hm field hf
      exact ⟨hmapfail field (h m hm field hf).1, (h m hm field hf).2⟩
    · intro h m hm field hf
      exact ⟨hsub field (h m hm field hf).1 (h m hm field hf).2, (h m hm field hf).2⟩

/-- Witness of C18 at a file whose only field is a map: the wire mapper
accepts the field, the type mapper rejects it, and `generateFile` fails. -/
theorem generateFile_succeeds_iff_witness :
    (getFieldDescriptor ⟨⟨"m", 1, .MessageKind, .map, 0⟩, "E", ""⟩).isOk = true ∧
    ((generateFile ⟨[]⟩ ⟨"a", [], [⟨"M", [⟨⟨"m", 1, .MessageKind, .map, 0⟩, "E", ""⟩]⟩]⟩).2 =
        none ↔
      ∀ m ∈ [(⟨"M", [⟨⟨"m", 1, .MessageKind, .map, 0⟩, "E", ""⟩]⟩ : Message)],
        ∀ field ∈ m.Fields,
          field.Desc.Cardinality ≠ .map ∧ (getFieldDescriptor field).isOk = true) :=
  ⟨by decide,
   generateFile_succeeds_iff.2.2.2 ⟨[]⟩
     ⟨"a", [], [⟨"M", [⟨⟨"m", 1, .MessageKind, .map, 0⟩, "E", ""⟩]⟩]⟩ (by decide)⟩

end ProtocGenZig
